import Mathlib

/-!
Verification of the guarded write subsystem of the TCL_BRAIN repository.

The development shallowly embeds, from the Python sources:
* sov_write_plan.py — the plan validator validate_plan;
* apply_write_plan.py — the hardened Apply Driver pipeline (main), its
  cell regex RX_CELL, and its canonical-JSON hash sha256_json;
* batch_select_plans.py — the batch plan-repair candidate filter and its
  own sha256_json (which passes ensure_ascii=False);
* the openpyxl helper coordinate_from_string used by the validator.

JSON values parsed by json.loads are embedded as the inductive Json.
JSON numbers are modelled as integers: every number occurring in the
concrete inputs below is integral, and none of the verified properties
depends on float formatting.  Python dict lookup d.get(k) becomes an
association-list lookup (with an explicit JSON null collapsing to absent,
exactly as json.loads maps null to None), and Python truthiness becomes
jtruthy.

hashlib.sha256 is embedded as a full executable SHA-256 over byte lists,
and json.dumps(obj, sort_keys=True, separators=(",", ":")) as jdump
(with the ensure_ascii flag as a parameter), so plan hashes compute
inside Lean exactly as in Python.

The one component of the subsystem whose implementation is not in the
repository is sov_locked_writer.py (class LockedSOVWriter): only its
callers (apply_write_plan.py) and its test (test_locked_writer_dryrun.py)
are present.  Its write_cell is therefore modelled from the spec, as
marked on the definition below.
-/

mutual
/-- A JSON value as produced by json.loads.  Numbers are modelled as
integers (see the header comment). -/
inductive Json where
  | null : Json
  | bool (b : Bool) : Json
  | num (n : Int) : Json
  | str (s : String) : Json
  | arr (elems : JsonList) : Json
  | obj (fields : JsonFields) : Json
deriving DecidableEq
/-- A list of JSON values (the elements of a JSON array). -/
inductive JsonList where
  | nil : JsonList
  | cons (hd : Json) (tl : JsonList) : JsonList
deriving DecidableEq
/-- The fields of a JSON object, in insertion order, as parsed by
json.loads into a Python dict. -/
inductive JsonFields where
  | nil : JsonFields
  | cons (key : String) (val : Json) (tl : JsonFields) : JsonFields
deriving DecidableEq
end

/-- Convert an embedded JSON array to an ordinary Lean list. -/
def JsonList.toList : JsonList → List Json
  | JsonList.nil => []
  | JsonList.cons x rest => x :: rest.toList

/-- Build an embedded JSON array from an ordinary Lean list. -/
def JsonList.ofList : List Json → JsonList
  | [] => JsonList.nil
  | x :: rest => JsonList.cons x (JsonList.ofList rest)

/-- Convert embedded JSON object fields to an ordinary Lean list. -/
def JsonFields.toList : JsonFields → List (String × Json)
  | JsonFields.nil => []
  | JsonFields.cons k v rest => (k, v) :: rest.toList

/-- Build embedded JSON object fields from an ordinary Lean list. -/
def JsonFields.ofList : List (String × Json) → JsonFields
  | [] => JsonFields.nil
  | (k, v) :: rest => JsonFields.cons k v (JsonFields.ofList rest)

/-- Shorthand constructor for a JSON array literal. -/
def jarr (xs : List Json) : Json := Json.arr (JsonList.ofList xs)

/-- Shorthand constructor for a JSON object literal. -/
def jobj (kvs : List (String × Json)) : Json := Json.obj (JsonFields.ofList kvs)

/-- Python truthiness of a parsed JSON value: None, False, 0, the empty
string, the empty list and the empty dict are falsy, everything else is
truthy. -/
def jtruthy : Json → Bool
  | Json.null => false
  | Json.bool b => b
  | Json.num n => decide (n ≠ 0)
  | Json.str s => decide (s ≠ "")
  | Json.arr xs => decide (xs ≠ JsonList.nil)
  | Json.obj kvs => decide (kvs ≠ JsonFields.nil)

/-- Truthiness of the result of a d.get(k) lookup (None when absent). -/
def jtruthyOpt : Option Json → Bool
  | none => false
  | some j => jtruthy j

/-- Raw association-list lookup: first binding of the key.  Objects parsed
by json.loads have unique keys, so first-match equals dict lookup. -/
def jget : JsonFields → String → Option Json
  | JsonFields.nil, _ => none
  | JsonFields.cons k v rest, key => if k = key then some v else jget rest key

/-- Python d.get(k) on a parsed JSON object.  A JSON null value loads as
Python None, which d.get(k) cannot distinguish from an absent key, so an
explicit null collapses to none. -/
def pyGet (kvs : JsonFields) (key : String) : Option Json :=
  match jget kvs key with
  | some Json.null => none
  | r => r

/-- Dict assignment d[k] = v: replaces the first binding of the key, or
appends a new binding at the end (CPython dict insertion order). -/
def jset : JsonFields → String → Json → JsonFields
  | JsonFields.nil, key, v => JsonFields.cons key v JsonFields.nil
  | JsonFields.cons k w rest, key, v =>
      if k = key then JsonFields.cons k v rest
      else JsonFields.cons k w (jset rest key v)

example : jget (JsonFields.ofList [("a", Json.num 1), ("b", Json.null)]) "b" = some Json.null := by decide
example : pyGet (JsonFields.ofList [("a", Json.num 1), ("b", Json.null)]) "b" = none := by decide
example : jtruthyOpt (pyGet (JsonFields.ofList [("a", Json.num 1)]) "c") = false := by decide

/-! ## Canonical JSON serialization

Embeds json.dumps(obj, sort_keys=True, separators=(",", ":")) from both
hash sites.  apply_write_plan.sha256_json uses the default
ensure_ascii=True (non-ASCII characters become backslash-u escapes);
batch_select_plans.sha256_json passes ensure_ascii=False (non-ASCII
characters stay literal and are UTF-8 encoded).  The serializer returns
the list of codepoints of the dumped string; utf8Encode then models the
final .encode("utf-8").
-/

/-- Lowercase hex digit codepoint for a value below 16, as used by the
backslash-u escapes of json.dumps. -/
def hexDigitCode (n : Nat) : Nat := if n < 10 then 48 + n else 87 + n

/-- Four lowercase hex digit codepoints of a value below 65536. -/
def hex4 (n : Nat) : List Nat :=
  [hexDigitCode (n / 4096 % 16), hexDigitCode (n / 256 % 16),
   hexDigitCode (n / 16 % 16), hexDigitCode (n % 16)]

/-- Escape one character of a JSON string exactly as the json module does:
quote, backslash and the named control escapes first, other control
characters as backslash-u; with ensure_ascii, characters above 0x7e are
backslash-u escaped (as a surrogate pair above 0xffff), otherwise kept. -/
def escChar (ascii : Bool) (ch : Char) : List Nat :=
  let c := ch.toNat
  if c = 34 then [92, 34]
  else if c = 92 then [92, 92]
  else if c = 8 then [92, 98]
  else if c = 9 then [92, 116]
  else if c = 10 then [92, 110]
  else if c = 12 then [92, 102]
  else if c = 13 then [92, 114]
  else if c < 32 then 92 :: 117 :: hex4 c
  else if ascii then
    if c < 127 then [c]
    else if c < 65536 then 92 :: 117 :: hex4 c
    else
      (92 :: 117 :: hex4 (55296 + (c - 65536) / 1024)) ++
      (92 :: 117 :: hex4 (56320 + (c - 65536) % 1024))
  else [c]

/-- Dump a JSON string literal, quotes included, as codepoints. -/
def dumpStr (ascii : Bool) (s : String) : List Nat :=
  34 :: (s.data.map (escChar ascii)).flatten ++ [34]

/-- Decimal digit codepoints of a natural number (fuel-based so that the
definition is kernel-reducible; the fuel n is always sufficient). -/
def natDigitsAux : Nat → Nat → List Nat → List Nat
  | 0, n, acc => (48 + n % 10) :: acc
  | fuel + 1, n, acc =>
      if n < 10 then (48 + n) :: acc
      else natDigitsAux fuel (n / 10) ((48 + n % 10) :: acc)

/-- Decimal codepoints of an integer, as str(int) prints it. -/
def dumpInt (n : Int) : List Nat :=
  if n < 0 then 45 :: natDigitsAux n.natAbs n.natAbs []
  else natDigitsAux n.toNat n.toNat []

/-- Python string comparison on codepoint lists (lexicographic), the
order sorted() uses on str keys. -/
def charListLt : List Char → List Char → Bool
  | [], [] => false
  | [], _ :: _ => true
  | _ :: _, [] => false
  | a :: as, b :: bs =>
      if a.toNat < b.toNat then true
      else if b.toNat < a.toNat then false
      else charListLt as bs

/-- Python operator less-than on strings. -/
def strLtPy (a b : String) : Bool := charListLt a.data b.data

/-- Stable insertion of a dumped key segment into a key-sorted list: the
new segment goes after existing segments with keys not greater than its
own, matching the stability of sorted(). -/
def insertSeg (p : String × List Nat) : List (String × List Nat) → List (String × List Nat)
  | [] => [p]
  | q :: rest => if strLtPy p.1 q.1 then p :: q :: rest else q :: insertSeg p rest

/-- Stable sort of dumped key segments by key, as sort_keys=True sorts
object items before emission. -/
def sortSegs : List (String × List Nat) → List (String × List Nat)
  | [] => []
  | p :: rest => insertSeg p (sortSegs rest)

/-- Comma-join dumped segments, the separators=(",", ":") item separator. -/
def commaJoin (xss : List (List Nat)) : List Nat := List.intercalate [44] xss

mutual
/-- Codepoints of json.dumps(j, sort_keys=True, separators=(",", ":")),
with ensure_ascii as a parameter. -/
def jdump (ascii : Bool) : Json → List Nat
  | Json.null => [110, 117, 108, 108]
  | Json.bool true => [116, 114, 117, 101]
  | Json.bool false => [102, 97, 108, 115, 101]
  | Json.num n => dumpInt n
  | Json.str s => dumpStr ascii s
  | Json.arr xs => 91 :: commaJoin (jdumpList ascii xs) ++ [93]
  | Json.obj kvs => 123 :: commaJoin ((sortSegs (jdumpFields ascii kvs)).map Prod.snd) ++ [125]
/-- Dumped elements of a JSON array, in order. -/
def jdumpList (ascii : Bool) : JsonList → List (List Nat)
  | JsonList.nil => []
  | JsonList.cons x rest => jdump ascii x :: jdumpList ascii rest
/-- Dumped key:value segments of a JSON object paired with their keys
(sorted afterwards; the dumped bytes of each segment do not depend on
field order, so sorting the finished segments by key is exactly
sort_keys=True). -/
def jdumpFields (ascii : Bool) : JsonFields → List (String × List Nat)
  | JsonFields.nil => []
  | JsonFields.cons k v rest =>
      (k, dumpStr ascii k ++ 58 :: jdump ascii v) :: jdumpFields ascii rest
end

/-- UTF-8 bytes of one codepoint. -/
def utf8Char (c : Nat) : List Nat :=
  if c < 128 then [c]
  else if c < 2048 then [192 + c / 64, 128 + c % 64]
  else if c < 65536 then [224 + c / 4096, 128 + c / 64 % 64, 128 + c % 64]
  else [240 + c / 262144, 128 + c / 4096 % 64, 128 + c / 64 % 64, 128 + c % 64]

/-- UTF-8 encoding of a codepoint list, modelling str.encode("utf-8"). -/
def utf8Encode (cs : List Nat) : List Nat := (cs.map utf8Char).flatten

example : jdump true (jobj [("b", Json.num 1), ("a", Json.str "x")]) =
    (String.toList "\x7b\"a\":\"x\",\"b\":1\x7d").map Char.toNat := by decide

/-! ## SHA-256

Executable embedding of hashlib.sha256(...).hexdigest() over byte lists,
used by both sha256_json call sites. -/

/-- Truncate to a 32-bit word. -/
def w32 (x : Nat) : Nat := x % 4294967296

/-- Rotate a 32-bit word right by n bits. -/
def rotr32 (n x : Nat) : Nat := w32 ((x >>> n) ||| (x <<< (32 - n)))

/-- SHA-256 round constants (fractional cube roots of the first 64
primes). -/
def shaK : List Nat :=
  [1116352408, 1899447441, 3049323471, 3921009573, 961987163, 1508970993, 2453635748, 2870763221,
   3624381080, 310598401, 607225278, 1426881987, 1925078388, 2162078206, 2614888103, 3248222580,
   3835390401, 4022224774, 264347078, 604807628, 770255983, 1249150122, 1555081692, 1996064986,
   2554220882, 2821834349, 2952996808, 3210313671, 3336571891, 3584528711, 113926993, 338241895,
   666307205, 773529912, 1294757372, 1396182291, 1695183700, 1986661051, 2177026350, 2456956037,
   2730485921, 2820302411, 3259730800, 3345764771, 3516065817, 3600352804, 4094571909, 275423344,
   430227734, 506948616, 659060556, 883997877, 958139571, 1322822218, 1537002063, 1747873779,
   1955562222, 2024104815, 2227730452, 2361852424, 2428436474, 2756734187, 3204031479, 3329325298]

/-- SHA-256 initial hash state. -/
def shaH0 : List Nat :=
  [1779033703, 3144134277, 1013904242, 2773480762, 1359893119, 2600822924, 528734635, 1541459225]

/-- Message padding: append 0x80, zeros to 56 mod 64, and the bit length
as eight big-endian bytes. -/
def shaPad (msg : List Nat) : List Nat :=
  let len := msg.length
  let zeros := (119 - len % 64) % 64
  let bitLen := 8 * len
  msg ++ 128 :: List.replicate zeros 0 ++
    [bitLen / 72057594037927936 % 256, bitLen / 281474976710656 % 256,
     bitLen / 1099511627776 % 256, bitLen / 4294967296 % 256,
     bitLen / 16777216 % 256, bitLen / 65536 % 256, bitLen / 256 % 256, bitLen % 256]

/-- Split a byte list into 64-byte blocks (fuel-based so that the
definition is kernel-reducible; the fuel is always sufficient). -/
def shaBlocksAux : Nat → List Nat → List (List Nat)
  | 0, _ => []
  | _ + 1, [] => []
  | fuel + 1, b :: rest =>
      (b :: rest).take 64 :: shaBlocksAux fuel ((b :: rest).drop 64)

/-- Split a padded message into 64-byte blocks. -/
def shaBlocks (bs : List Nat) : List (List Nat) := shaBlocksAux bs.length bs

/-- Big-endian 32-bit words of a 64-byte block. -/
def shaWords : List Nat → List Nat
  | b0 :: b1 :: b2 :: b3 :: rest => (b0 * 16777216 + b1 * 65536 + b2 * 256 + b3) :: shaWords rest
  | _ => []

/-- Extend the 16 message words to 64 by the SHA-256 schedule. -/
def shaExtend : Nat → List Nat → List Nat
  | 0, ws => ws
  | n + 1, ws =>
      let l := ws.length
      let w15 := ws.getD (l - 15) 0
      let w2 := ws.getD (l - 2) 0
      let s0 := (rotr32 7 w15) ^^^ (rotr32 18 w15) ^^^ (w15 >>> 3)
      let s1 := (rotr32 17 w2) ^^^ (rotr32 19 w2) ^^^ (w2 >>> 10)
      shaExtend n (ws ++ [w32 (ws.getD (l - 16) 0 + s0 + ws.getD (l - 7) 0 + s1)])

/-- One round of the SHA-256 compression function. -/
def shaRound (st : List Nat) (kw : Nat × Nat) : List Nat :=
  match st with
  | [a, b, c, d, e, f, g, h] =>
      let s1 := (rotr32 6 e) ^^^ (rotr32 11 e) ^^^ (rotr32 25 e)
      let ch := (e &&& f) ^^^ ((4294967295 - e) &&& g)
      let t1 := w32 (h + s1 + ch + kw.1 + kw.2)
      let s0 := (rotr32 2 a) ^^^ (rotr32 13 a) ^^^ (rotr32 22 a)
      let mj := (a &&& b) ^^^ (a &&& c) ^^^ (b &&& c)
      let t2 := w32 (s0 + mj)
      [w32 (t1 + t2), a, b, c, w32 (d + t1), e, f, g]
  | st => st

/-- Compress one 64-byte block into the running hash state. -/
def shaCompress (h : List Nat) (block : List Nat) : List Nat :=
  let ws := shaExtend 48 (shaWords block)
  let st := (shaK.zip ws).foldl shaRound h
  (h.zip st).map (fun p => w32 (p.1 + p.2))

/-- SHA-256 digest of a byte list, as 32 bytes. -/
def sha256bytes (msg : List Nat) : List Nat :=
  let hs := (shaBlocks (shaPad msg)).foldl shaCompress shaH0
  (hs.map (fun w => [w / 16777216 % 256, w / 65536 % 256, w / 256 % 256, w % 256])).flatten

/-- Lowercase hex digest string of a byte list, as hexdigest() returns. -/
def sha256hex (msg : List Nat) : String :=
  String.mk ((sha256bytes msg).map
    (fun b => [Char.ofNat (hexDigitCode (b / 16)), Char.ofNat (hexDigitCode (b % 16))])).flatten

/-- Embeds sha256_json of apply_write_plan.py:
hashlib.sha256(json.dumps(obj, sort_keys=True, separators=(",", ":")).encode("utf-8")).hexdigest()
with the json.dumps default ensure_ascii=True. -/
def sha256_json_ascii (obj : Json) : String :=
  sha256hex (utf8Encode (jdump true obj))

/-- Embeds sha256_json of batch_select_plans.py: identical except that it
passes ensure_ascii=False to json.dumps. -/
def sha256_json_noascii (obj : Json) : String :=
  sha256hex (utf8Encode (jdump false obj))

/-! ## Cell addresses

Character-level embeddings of the three regular expressions and of the
openpyxl coordinate parser:
* RX_CELL in apply_write_plan.py;
* A1_RE in batch_select_plans.py, which is also the literal grammar the
  spec states in section 6;
* COORD_RE inside openpyxl coordinate_from_string, called by
  validate_plan.
Each regex anchors at both ends and splits the string into a letter
prefix and a digit suffix; since no character is both a letter and a
digit, the match is equivalent to the takeWhile/dropWhile split used
here. -/

/-- Uppercase ASCII letter test, the [A-Z] character class. -/
def isUpperAZ (c : Char) : Bool := decide (65 ≤ c.toNat) && decide (c.toNat ≤ 90)

/-- ASCII letter test, the [A-Za-z] character class of openpyxl COORD_RE. -/
def isAsciiLetter (c : Char) : Bool :=
  isUpperAZ c || (decide (97 ≤ c.toNat) && decide (c.toNat ≤ 122))

/-- ASCII digit test, the [0-9] character class. -/
def isDigit09 (c : Char) : Bool := decide (48 ≤ c.toNat) && decide (c.toNat ≤ 57)

/-- Numeric value of a digit string, as int() parses it (leading zeros
allowed). -/
def natOfDigits (ds : List Char) : Nat :=
  ds.foldl (fun a c => 10 * a + (c.toNat - 48)) 0

/-- Embeds RX_CELL.match from apply_write_plan.py, the anchored regex of
one to three uppercase letters followed by one to five digits. -/
def rxCellMatch (s : String) : Bool :=
  let letters := s.data.takeWhile isUpperAZ
  let rest := s.data.dropWhile isUpperAZ
  decide (1 ≤ letters.length) && decide (letters.length ≤ 3) &&
    decide (1 ≤ rest.length) && decide (rest.length ≤ 5) && rest.all isDigit09

/-- Embeds A1_RE.match from batch_select_plans.py, the anchored regex of
one to three uppercase letters, a nonzero digit, then digits. -/
def a1Match (s : String) : Bool :=
  let letters := s.data.takeWhile isUpperAZ
  let rest := s.data.dropWhile isUpperAZ
  decide (1 ≤ letters.length) && decide (letters.length ≤ 3) &&
    decide (1 ≤ rest.length) && rest.all isDigit09 &&
    (match rest with | [] => false | d :: _ => decide (d ≠ '0'))

/-- The cell address grammar stated by the spec (section 6): one to three
uppercase letters, then a row with no leading zero and no row zero.
Stated from the words of the spec, to compare against what the code
accepts. -/
def specCellGrammar (s : String) : Bool :=
  let letters := s.data.takeWhile isUpperAZ
  let rest := s.data.dropWhile isUpperAZ
  decide (1 ≤ letters.length) && decide (letters.length ≤ 3) &&
    decide (1 ≤ rest.length) && rest.all isDigit09 &&
    (match rest with | [] => false | d :: _ => decide (d ≠ '0'))

/-- Embeds openpyxl coordinate_from_string: COORD_RE allows an optional
dollar before the letters (one to three ASCII letters, either case) and
before the digits, and the function then raises on row zero.  Returns
none where the Python raises CellCoordinatesException. -/
def coordinate_from_string (s : String) : Option (String × Nat) :=
  let cs := match s.data with
    | '$' :: rest => rest
    | cs => cs
  let letters := cs.takeWhile isAsciiLetter
  let afterL := cs.dropWhile isAsciiLetter
  let afterD := match afterL with
    | '$' :: rest => rest
    | l => l
  let digits := afterD.takeWhile isDigit09
  let trailing := afterD.dropWhile isDigit09
  if letters.length < 1 ∨ 3 < letters.length ∨ digits.length < 1 ∨ trailing ≠ [] then none
  else
    let row := natOfDigits digits
    if row = 0 then none else some (String.mk letters, row)

/-- Column letters of a syntactically valid cell address: the uppercase
prefix.  Used by the modelled writer and by the statements below. -/
def colLettersOf (s : String) : String := String.mk (s.data.takeWhile isUpperAZ)

/-- Row number of a syntactically valid cell address: int() of the digit
suffix. -/
def rowNumberOf (s : String) : Nat := natOfDigits (s.data.dropWhile isUpperAZ)

/-- Embeds cell_to_col from batch_select_plans.py: the anchored regex of
one to three uppercase letters followed by at least one digit, returning
the letter group. -/
def cell_to_col (cell : String) : Option String :=
  let letters := cell.data.takeWhile isUpperAZ
  let rest := cell.data.dropWhile isUpperAZ
  if 1 ≤ letters.length ∧ letters.length ≤ 3 ∧ 1 ≤ rest.length ∧ rest.all isDigit09 then
    some (String.mk letters)
  else none

/-- Python str.startswith(p): executable prefix test on the character
lists. -/
def pyStartsWith (s : String) (p : String) : Bool := p.data.isPrefixOf s.data

/-- Python str.strip() on the whitespace occurring in cell addresses:
drops ASCII whitespace from both ends.  (Python also strips some exotic
unicode spaces; no input below contains any.) -/
def isPySpace (c : Char) : Bool :=
  decide (c.toNat = 32) || (decide (9 ≤ c.toNat) && decide (c.toNat ≤ 13))

/-- Python str.strip() of a string. -/
def pyStrip (s : String) : String :=
  String.mk (((s.data.dropWhile isPySpace).reverse.dropWhile isPySpace).reverse)

example : rxCellMatch "A0" = true := by decide
example : rxCellMatch "A01" = true := by decide
example : rxCellMatch "A123456" = false := by decide
example : rxCellMatch "a1" = false := by decide
example : specCellGrammar "A01" = false := by decide
example : specCellGrammar "I50" = true := by decide
example : coordinate_from_string "A01" = some ("A", 1) := by decide
example : coordinate_from_string "A0" = none := by decide
example : coordinate_from_string "$I$50" = some ("I", 50) := by decide
example : pyStrip " I50 " = "I50" := by decide

/-! ## Template lock and plan validator (sov_write_plan.py) -/

/-- The fields of the lock JSON that validate_plan and the Apply Driver
read: lock["template"]["sha256"], lock["governing"]["sheet"],
lock["governing"]["code_rows"]["span"] and lock["write_policy"].
The Python builds set() of the two column lists but uses them only for
membership, so list membership is an exact model. -/
structure Lock where
  template_sha256 : String
  governing_sheet : String
  row_first : Int
  row_last : Int
  allowed_columns : List String
  denied_columns : List String
deriving DecidableEq

/-- One violation string appended by validate_plan, embedded structurally:
each constructor corresponds to one errors.append site, carrying the data
interpolated into the message. -/
inductive Violation where
  | shaMismatch : Violation
  | noWrites : Violation
  | badSheet (i : Nat) : Violation
  | missingCell (i : Nat) : Violation
  | invalidCell (i : Nat) (cell : String) : Violation
  | rowOutside (i : Nat) (row : Nat) : Violation
  | colDenied (i : Nat) (col : String) : Violation
  | colNotAllowed (i : Nat) (col : String) : Violation
  | missingSource (i : Nat) : Violation
  | sourceMissingKey (i : Nat) (k : String) : Violation
  | missingMeta (i : Nat) : Violation
  | metaMissingKey (i : Nat) (k : String) : Violation
deriving DecidableEq

/-- Sheet check of validate_plan: sheet != gov_sheet, where sheet is
w.get("sheet"). -/
def sheetErrs (lock : Lock) (i : Nat) (kvs : JsonFields) : List Violation :=
  if pyGet kvs "sheet" = some (Json.str lock.governing_sheet) then [] else [Violation.badSheet i]

/-- Row window check of validate_plan: outside the lock span is an error
only above the hard-coded header block of rows one to twelve. -/
def rowErrs (lock : Lock) (i : Nat) (row : Nat) : List Violation :=
  if (row : Int) < lock.row_first ∨ lock.row_last < (row : Int) then
    (if 12 < row then [Violation.rowOutside i row] else [])
  else []

/-- Column policy checks of validate_plan: denied and not-allowed are two
independent appends. -/
def colErrs (lock : Lock) (i : Nat) (col : String) : List Violation :=
  (if col ∈ lock.denied_columns then [Violation.colDenied i col] else []) ++
  (if col ∈ lock.allowed_columns then [] else [Violation.colNotAllowed i col])

/-- SourceRef requirement of validate_plan: a falsy or non-dict source is
one violation; otherwise each falsy required key is its own violation. -/
def srcErrs (i : Nat) (kvs : JsonFields) : List Violation :=
  match pyGet kvs "source" with
  | some (Json.obj skvs) =>
      if skvs = JsonFields.nil then [Violation.missingSource i]
      else ["source_type", "source_path", "locator"].filterMap
        (fun k => if jtruthyOpt (pyGet skvs k) then none else some (Violation.sourceMissingKey i k))
  | _ => [Violation.missingSource i]

/-- WriteMeta requirement of validate_plan, parallel to the source check
with five required keys. -/
def metaErrs (i : Nat) (kvs : JsonFields) : List Violation :=
  match pyGet kvs "meta" with
  | some (Json.obj mkvs) =>
      if mkvs = JsonFields.nil then [Violation.missingMeta i]
      else ["project", "option", "trade", "bucket_code", "line_id"].filterMap
        (fun k => if jtruthyOpt (pyGet mkvs k) then none else some (Violation.metaMissingKey i k))
  | _ => [Violation.missingMeta i]

/-- Violations of one write after its sheet check: a falsy or non-string
cell, or an unparseable cell, short-circuits the rest of the checks for
this write (the continue statements in the loop). -/
def afterSheetErrs (lock : Lock) (i : Nat) (kvs : JsonFields) : List Violation :=
  match pyGet kvs "cell" with
  | some (Json.str s) =>
      if s = "" then [Violation.missingCell i]
      else
        match coordinate_from_string s with
        | none => [Violation.invalidCell i s]
        | some (col, row) =>
            rowErrs lock i row ++ colErrs lock i col ++ srcErrs i kvs ++ metaErrs i kvs
  | some _ => [Violation.missingCell i]
  | none => [Violation.missingCell i]

/-- Violations contributed by one write of the plan.  A non-dict write
raises AttributeError at w.get, modelled as the error result. -/
def writeViolations (lock : Lock) (i : Nat) (w : Json) : Except Unit (List Violation) :=
  match w with
  | Json.obj kvs => Except.ok (sheetErrs lock i kvs ++ afterSheetErrs lock i kvs)
  | _ => Except.error ()

/-- The enumerate loop of validate_plan: violations of every write, in
order; a raise anywhere aborts the whole call. -/
def validateWrites (lock : Lock) : Nat → List Json → Except Unit (List Violation)
  | _, [] => Except.ok []
  | i, w :: rest => do
      let es ← writeViolations lock i w
      let rest2 ← validateWrites lock (i + 1) rest
      pure (es ++ rest2)

/-- Embeds validate_plan from sov_write_plan.py.  The error result models
an uncaught Python exception (iterating a truthy non-list writes value, or
calling .get on a non-dict write); the ok result is the returned list of
violations, in append order. -/
def validate_plan (plan : JsonFields) (lock : Lock) : Except Unit (List Violation) :=
  let shaE :=
    if pyGet plan "template_sha256" = some (Json.str lock.template_sha256) then []
    else [Violation.shaMismatch]
  let wv := (pyGet plan "writes").getD (jarr [])
  if jtruthy wv = false then Except.ok (shaE ++ [Violation.noWrites])
  else
    match wv with
    | Json.arr wsJ => do
        let es ← validateWrites lock 0 wsJ.toList
        Except.ok (shaE ++ es)
    | _ => Except.error ()

/-! ## Locked writer (modelled from the spec) and the Apply Driver -/

/-- A normalized source reference, the SourceRef dataclass the driver
constructs before each write_cell call.  Field values keep their parsed
JSON form (the Python dataclass does not enforce str). -/
structure SourceRef where
  source_type : Json
  source_path : Json
  locator : Json
  notes : Json
deriving DecidableEq

/-- Embeds _normalize_source from apply_write_plan.py: a non-dict becomes
all-unknown; otherwise each field is the first truthy candidate, with the
literal fallbacks. -/
def _normalize_source (srcd : Json) : SourceRef :=
  match srcd with
  | Json.obj kvs =>
      let pick := fun (a b : Option Json) (dflt : Json) =>
        if jtruthyOpt a then a.getD dflt else if jtruthyOpt b then b.getD dflt else dflt
      { source_type := pick (pyGet kvs "source_type") (pyGet kvs "type") (Json.str "unknown")
        source_path := pick (pyGet kvs "source_path") (pyGet kvs "path") (Json.str "unknown")
        locator := pick (pyGet kvs "locator") none (Json.str "unknown")
        notes := pick (pyGet kvs "notes") none (Json.str "") }
  | _ =>
      { source_type := Json.str "unknown", source_path := Json.str "unknown"
        locator := Json.str "unknown", notes := Json.str "" }

/-- Embeds _get_write_value from apply_write_plan.py: the value key when
present and not None, else the legacy nested write.value, else None. -/
def _get_write_value (kvs : JsonFields) : Json :=
  match jget kvs "value" with
  | some v =>
      if v = Json.null then _get_write_value_legacy kvs else v
  | none => _get_write_value_legacy kvs
where
  /-- The legacy branch: w.get("write") must be a dict whose value key is
  not None. -/
  _get_write_value_legacy (kvs : JsonFields) : Json :=
    match pyGet kvs "write" with
    | some (Json.obj wkvs) =>
        match pyGet wkvs "value" with
        | some v => v
        | none => Json.null
    | _ => Json.null

/-- State of one spreadsheet cell: its current content and whether it is
part of a merged region.  A formula cell holds its formula as a string
beginning with the equals sign, as openpyxl loads formulas. -/
structure CellSt where
  value : Json
  merged : Bool
deriving DecidableEq

/-- The in-memory document: finitely many cells differing from the blank
default (empty content, not merged). -/
abbrev Document : Type := List (String × CellSt)

/-- Blank cell state. -/
def blankCell : CellSt := { value := Json.null, merged := false }

/-- Cell state at an address. -/
def docGet (doc : Document) (addr : String) : CellSt :=
  match doc with
  | [] => blankCell
  | (a, st) :: rest => if a = addr then st else docGet rest addr

/-- Set the content of a cell, preserving its merged flag. -/
def docSet (doc : Document) (addr : String) (v : Json) : Document :=
  match doc with
  | [] => [(addr, { value := v, merged := false })]
  | (a, st) :: rest =>
      if a = addr then (a, { value := v, merged := st.merged }) :: rest
      else (a, st) :: docSet rest addr v

/-- Whether existing cell content is a formula string (openpyxl represents
a formula as its source text starting with the equals sign). -/
def isFormulaVal : Json → Bool
  | Json.str s => pyStartsWith s "="
  | _ => false

/-- One audit record, appended per accepted write: cell, old value, new
value, source and meta.  The wall-clock timestamp of the record is not
modelled. -/
structure AuditRec where
  cell : String
  old_value : Json
  new_value : Json
  source : SourceRef
  meta : Json
deriving DecidableEq

/-- Modelled from the spec: sov_locked_writer.py (class LockedSOVWriter)
is not in the repository, so write_cell is modelled from spec section 4.3
and the expectations of test_locked_writer_dryrun.py.  The writer
re-checks the column policy of the lock live (the dryrun test requires a
denied-column write to raise PermissionError), fails closed on a merged
target, fails closed on existing formula content, and otherwise sets the
value and appends exactly one audit record.  The error result models the
raised exception: no cell changes and no audit record is appended. -/
def write_cell (lock : Lock) (doc : Document) (audit : List AuditRec)
    (cell_addr : String) (new_value : Json) (source : SourceRef) (meta : Json) :
    Except Unit (Document × List AuditRec) :=
  let col := colLettersOf cell_addr
  if col ∈ lock.denied_columns ∨ col ∉ lock.allowed_columns then Except.error ()
  else
    let st := docGet doc cell_addr
    if st.merged then Except.error ()
    else if isFormulaVal st.value then Except.error ()
    else Except.ok (docSet doc cell_addr new_value,
      audit ++ [{ cell := cell_addr, old_value := st.value, new_value := new_value,
                  source := source, meta := meta }])

/-- Outcome of the apply loop of the driver: all writes applied, or a
write_cell call raised, or a Python-level error (a write reaching the
loop without a string cell or without a meta key; unreachable after
preflight, modelled for totality).  Each outcome carries the audit
records appended so far. -/
inductive ApplyOut where
  | finished (doc : Document) (audit : List AuditRec) : ApplyOut
  | raised (audit : List AuditRec) : ApplyOut
  | crashed (audit : List AuditRec) : ApplyOut
deriving DecidableEq

/-- The audit records carried by an apply outcome. -/
def ApplyOut.audit : ApplyOut → List AuditRec
  | ApplyOut.finished _ a => a
  | ApplyOut.raised a => a
  | ApplyOut.crashed a => a

/-- The source the apply loop hands to write_cell: w.get("source") or {}
fed through _normalize_source. -/
def applySrcOf (kvs : JsonFields) : SourceRef :=
  _normalize_source (match pyGet kvs "source" with
    | some sv => if jtruthy sv then sv else Json.obj JsonFields.nil
    | none => Json.obj JsonFields.nil)

/-- Embeds the apply loop of apply_write_plan.main: per write, normalize
the source, compute the value, then write_cell(w["cell"], value, source,
w["meta"]); the first raise stops the loop. -/
def applyWrites (lock : Lock) : Document → List AuditRec → List Json → ApplyOut
  | doc, audit, [] => ApplyOut.finished doc audit
  | doc, audit, w :: rest =>
      match w with
      | Json.obj kvs =>
          match jget kvs "cell", jget kvs "meta" with
          | some (Json.str cell), some meta =>
              match write_cell lock doc audit cell (_get_write_value kvs)
                  (applySrcOf kvs) meta with
              | Except.ok (doc2, audit2) => applyWrites lock doc2 audit2 rest
              | Except.error _ => ApplyOut.raised audit
          | _, _ => ApplyOut.crashed audit
      | _ => ApplyOut.crashed audit

/-- Outcome of the preflight loop of apply_write_plan.main: all writes
pass, or fatal (SystemExit 2), or a Python-level crash (calling .strip()
on a truthy non-string cell value raises AttributeError, which exits with
a code other than 2). -/
inductive PFOut where
  | pass : PFOut
  | fatalStop : PFOut
  | crashStop : PFOut
deriving DecidableEq

/-- Embeds the preflight loop: cell = (w.get("cell") or "").strip(), then
RX_CELL syntax, then the startswith("T") formula-column refusal, then the
meta and source presence checks; the first fatal stops the run. -/
def preflightWrites : List Json → PFOut
  | [] => PFOut.pass
  | w :: rest =>
      match w with
      | Json.obj kvs =>
          let cellS : Option String :=
            match pyGet kvs "cell" with
            | some (Json.str s0) => some s0
            | some v => if jtruthy v then none else some ""
            | none => some ""
          match cellS with
          | none => PFOut.crashStop
          | some s0 =>
              let s := pyStrip s0
              if rxCellMatch s = false then PFOut.fatalStop
              else if pyStartsWith s "T" then PFOut.fatalStop
              else if jtruthyOpt (pyGet kvs "meta") = false then PFOut.fatalStop
              else if jtruthyOpt (pyGet kvs "source") = false then PFOut.fatalStop
              else preflightWrites rest
      | _ => PFOut.crashStop

/-- Embeds the duplicate-target Counter of the driver: the multiset of
(w.get("sheet"), w.get("cell")) pairs; building it calls .get on every
write, so any non-dict write raises first (none result). -/
def getTargets : List Json → Option (List (Option Json × Option Json))
  | [] => some []
  | w :: rest =>
      match w with
      | Json.obj kvs =>
          (getTargets rest).map (fun ts => (pyGet kvs "sheet", pyGet kvs "cell") :: ts)
      | _ => none

/-- Result of one Apply Driver run: the process exit code (0 success,
2 SystemExit from a gate, 1 an uncaught exception), the audit records
this run appended, how many times save_as ran, and whether the
LockedSOVWriter was constructed. -/
structure RunResult where
  exitCode : Nat
  applied : List AuditRec
  saveCount : Nat
  writerMade : Bool
deriving DecidableEq

/-- Result of a gate failure: SystemExit 2 before the writer exists,
nothing applied, nothing saved. -/
def fatalRun : RunResult :=
  { exitCode := 2, applied := [], saveCount := 0, writerMade := false }

/-- Result of an uncaught exception before the writer exists. -/
def crashRun : RunResult :=
  { exitCode := 1, applied := [], saveCount := 0, writerMade := false }

/-- Outcome of the gate sequence of apply_write_plan.main: SystemExit 2,
an uncaught exception, or clearance to apply with the writes list. -/
inductive GateOut where
  | fatal : GateOut
  | crash : GateOut
  | proceed (wsJ : JsonList) : GateOut
deriving DecidableEq

/-- Embeds the gate sequence of apply_write_plan.main, in source order:
environment gate, template sha binding, non-empty writes list, plan_hash
presence and integrity, duplicate targets, per-write preflight, then
validate_plan.  File-existence checks on the three input paths are not
modelled (they concern the filesystem, not plan content). -/
def driverGates (envGate : Bool) (plan : JsonFields) (lock : Lock) : GateOut :=
  if envGate = false then GateOut.fatal
  else if pyGet plan "template_sha256" ≠ some (Json.str lock.template_sha256) then GateOut.fatal
  else
    match (pyGet plan "writes").getD (jarr []) with
    | Json.arr wsJ =>
        if wsJ.toList = [] then GateOut.fatal
        else if jtruthyOpt (pyGet plan "plan_hash") = false then GateOut.fatal
        else if pyGet plan "plan_hash" ≠ some (Json.str (sha256_json_ascii (Json.arr wsJ))) then
          GateOut.fatal
        else
          match getTargets wsJ.toList with
          | none => GateOut.crash
          | some ts =>
              if ts.any (fun t => 1 < ts.count t) then GateOut.fatal
              else
                match preflightWrites wsJ.toList with
                | PFOut.crashStop => GateOut.crash
                | PFOut.fatalStop => GateOut.fatal
                | PFOut.pass =>
                    match validate_plan plan lock with
                    | Except.error _ => GateOut.crash
                    | Except.ok errs => if errs ≠ [] then GateOut.fatal else GateOut.proceed wsJ
    | _ => GateOut.fatal

/-- Embeds apply_write_plan.main after argument parsing, as a function of
the environment gate (whether TCL_HARDENED_APPLY equals the string one),
the parsed plan JSON, the lock, and the template document.  After the
gates, the audit log starts empty, the LockedSOVWriter is constructed,
the apply loop runs, and save_as runs exactly at the end of a fully
successful loop.  An uncaught exception from the loop (a raising
write_cell included) skips the save. -/
def applyDriver (envGate : Bool) (plan : JsonFields) (lock : Lock) (doc : Document) : RunResult :=
  match driverGates envGate plan lock with
  | GateOut.fatal => fatalRun
  | GateOut.crash => crashRun
  | GateOut.proceed wsJ =>
      match applyWrites lock doc [] wsJ.toList with
      | ApplyOut.finished _ audit =>
          { exitCode := 0, applied := audit, saveCount := 1, writerMade := true }
      | ApplyOut.raised audit =>
          { exitCode := 1, applied := audit, saveCount := 0, writerMade := true }
      | ApplyOut.crashed audit =>
          { exitCode := 1, applied := audit, saveCount := 0, writerMade := true }

/-! ## Batch plan repair (batch_select_plans.py) -/

/-- Embeds FORMULA_COLS, the hard-coded denied-column safety net. -/
def FORMULA_COLS : List String := ["T"]

/-- Embeds plan_template_sha: the template_sha256 key, else the legacy
template_sha key (Python or-chain), kept only when a non-empty string. -/
def plan_template_sha (pkvs : JsonFields) : Option String :=
  let a := pyGet pkvs "template_sha256"
  let b := pyGet pkvs "template_sha"
  match (if jtruthyOpt a then a.getD Json.null else b.getD Json.null) with
  | Json.str s => if s = "" then none else some s
  | _ => none

/-- Embeds write_has_required_source: (has a source at all, has all of
source_type, source_path, locator present and neither None nor empty). -/
def write_has_required_source (kvs : JsonFields) : Bool × Bool :=
  match pyGet kvs "source" with
  | none => (false, false)
  | some (Json.obj skvs) =>
      (true, ["source_type", "source_path", "locator"].all (fun k =>
        match jget skvs k with
        | none => false
        | some v => decide (v ≠ Json.null) && decide (v ≠ Json.str "")))
  | some _ => (true, false)

/-- Embeds write_has_required_meta: meta must be a dict with the five
required keys present and neither None nor empty. -/
def write_has_required_meta (kvs : JsonFields) : Bool :=
  match pyGet kvs "meta" with
  | some (Json.obj mkvs) =>
      ["project", "option", "trade", "bucket_code", "line_id"].all (fun k =>
        match jget mkvs k with
        | none => false
        | some v => decide (v ≠ Json.null) && decide (v ≠ Json.str ""))
  | _ => false

/-- The per-write loop of batch_select_plans.main, carrying the
seen_targets set; returns the first skip reason, or none when every
write passes. -/
def batchCheckWrites : List (String × String) → List Json → Option String
  | _, [] => none
  | seen, w :: rest =>
      match w with
      | Json.obj kvs =>
          match pyGet kvs "sheet", pyGet kvs "cell" with
          | some (Json.str sheet), some (Json.str cell) =>
              if sheet = "" ∨ cell = "" then some "missing_cell_or_sheet"
              else if a1Match cell = false then some "invalid_cell"
              else if (match cell_to_col cell with
                       | some c => decide (c ∈ FORMULA_COLS)
                       | none => false) = true then some "formula_col_target"
              else if (sheet, cell) ∈ seen then some "dup_cell_in_plan"
              else if (write_has_required_source kvs).1 = false then some "missing_source"
              else if (write_has_required_source kvs).2 = false then some "incomplete_source"
              else if write_has_required_meta kvs = false then some "missing_meta"
              else batchCheckWrites ((sheet, cell) :: seen) rest
          | _, _ => some "missing_cell_or_sheet"
      | _ => some "bad_write_obj"

/-- Outcome of one candidate in batch_select_plans.main: skipped with a
counted reason; listed ready as the original file, untouched; or written
to the separate ready directory with exactly the backfilled plan_hash. -/
inductive BatchOut where
  | skip (reason : String) : BatchOut
  | readyOriginal : BatchOut
  | readyFixed (fixed : JsonFields) : BatchOut
deriving DecidableEq

/-- Embeds the per-candidate body of batch_select_plans.main, given the
parsed candidate JSON and the lock sha (some s only when get_lock_sha
found a non-empty string).  After the structural checks, a candidate with
a falsy plan_hash gets one computed over its writes with the
ensure_ascii=False sha256_json and is written to the ready directory; any
other passing candidate is referenced unchanged — its existing plan_hash
is never compared to the writes. -/
def processCandidate (plan : Json) (lockSha : Option String) : BatchOut :=
  match plan with
  | Json.obj pkvs =>
      match pyGet pkvs "writes" with
      | some (Json.arr wsJ) =>
          if wsJ = JsonList.nil then BatchOut.skip "no_writes"
          else
            match plan_template_sha pkvs with
            | none => BatchOut.skip "missing_template_sha"
            | some psha =>
                if (match lockSha with
                    | some l => decide (psha ≠ l)
                    | none => false) = true then BatchOut.skip "sha_mismatch"
                else
                  match batchCheckWrites [] wsJ.toList with
                  | some reason => BatchOut.skip reason
                  | none =>
                      if jtruthyOpt (pyGet pkvs "plan_hash") = false then
                        BatchOut.readyFixed
                          (jset pkvs "plan_hash" (Json.str (sha256_json_noascii (Json.arr wsJ))))
                      else BatchOut.readyOriginal
      | _ => BatchOut.skip "no_writes"
  | _ => BatchOut.skip "not_dict"

/-! ## Basic lemmas -/

/-- A non-collapsed pyGet result is also the raw lookup result. -/
theorem pyGet_eq_jget {kvs : JsonFields} {k : String} {v : Json}
    (h : pyGet kvs k = some v) : jget kvs k = some v := by
  unfold pyGet at h
  split at h
  · simp at h
  · exact h

/-- An empty writes list converts to the empty Lean list only from nil. -/
theorem JsonList.toList_eq_nil {wsJ : JsonList} (h : wsJ.toList = []) : wsJ = JsonList.nil := by
  cases wsJ with
  | nil => rfl
  | cons x rest => simp [JsonList.toList] at h

/-- Setting one cell leaves every other address unchanged. -/
theorem docGet_docSet_ne (doc : Document) {a b : String} (v : Json) (h : a ≠ b) :
    docGet (docSet doc a v) b = docGet doc b := by
  induction doc with
  | nil => simp [docSet, docGet, h]
  | cons p rest ih =>
      obtain ⟨pa, pst⟩ := p
      by_cases hpa : pa = a
      · subst hpa
        simp [docSet, docGet, h]
      · simp [docSet, docGet, hpa]
        split
        · rfl
        · exact ih

/-- A non-empty writes list seen through the .get default comes from the
writes key itself. -/
theorem writes_getD_some {plan : JsonFields} {wsJ : JsonList}
    (h : (pyGet plan "writes").getD (jarr []) = Json.arr wsJ) (hne : wsJ.toList ≠ []) :
    pyGet plan "writes" = some (Json.arr wsJ) := by
  cases hpg : pyGet plan "writes" with
  | none =>
      rw [hpg] at h
      simp [jarr, JsonList.ofList] at h
      rw [← h] at hne
      simp [JsonList.toList] at hne
  | some v =>
      rw [hpg] at h
      simp at h
      rw [h]

set_option maxHeartbeats 2000000 in
/-- Inversion of a cleared gate sequence: clearance pins down every gate,
including an empty violation list from validate_plan and duplicate-free
targets. -/
theorem gates_proceed_inv {envGate : Bool} {plan : JsonFields} {lock : Lock} {wsJ : JsonList}
    (h : driverGates envGate plan lock = GateOut.proceed wsJ) :
    pyGet plan "writes" = some (Json.arr wsJ) ∧ wsJ.toList ≠ [] ∧
    pyGet plan "plan_hash" = some (Json.str (sha256_json_ascii (Json.arr wsJ))) ∧
    (∃ ts, getTargets wsJ.toList = some ts ∧ ts.any (fun t => 1 < ts.count t) = false) ∧
    preflightWrites wsJ.toList = PFOut.pass ∧
    validate_plan plan lock = Except.ok [] := by
  unfold driverGates at h
  repeat' split at h
  all_goals simp_all
  exact writes_getD_some (by assumption) (by assumption)

/-- Claim C2 — for every Apply Driver run in which any gate fails or any
write_cell call raises partway through the plan, no output file is
created: save_as runs exactly once, and only on runs where the whole
apply loop finished (every write in the plan succeeded, exit code 0, the
audit holding one record per write); any run with a non-zero exit saves
nothing and keeps at most the partial audit of the writes that had
already succeeded. -/
theorem c2_save_only_after_full_success (envGate : Bool) (plan : JsonFields) (lock : Lock)
    (doc : Document) :
    (applyDriver envGate plan lock doc).saveCount ≤ 1 ∧
    ((applyDriver envGate plan lock doc).saveCount = 1 →
      (applyDriver envGate plan lock doc).exitCode = 0 ∧
      ∃ wsJ doc2, pyGet plan "writes" = some (Json.arr wsJ) ∧
        applyWrites lock doc [] wsJ.toList =
          ApplyOut.finished doc2 (applyDriver envGate plan lock doc).applied) ∧
    ((applyDriver envGate plan lock doc).exitCode ≠ 0 →
      (applyDriver envGate plan lock doc).saveCount = 0) := by
  unfold applyDriver
  cases hg : driverGates envGate plan lock with
  | fatal => simp [fatalRun]
  | crash => simp [crashRun]
  | proceed wsJ =>
      have hw := (gates_proceed_inv hg).1
      cases ha : applyWrites lock doc [] wsJ.toList with
      | finished d2 audit =>
          simp only [ha]
          exact ⟨by simp, fun _ => ⟨by simp, wsJ, d2, hw, by rw [ha]⟩, by simp⟩
      | raised audit => simp only [ha]; simp
      | crashed audit => simp only [ha]; simp

/-! ## Concrete fixtures

A lock and plans matching the scenario of spec section 8 (allowed I,
denied T, code rows 13 to 220, governing sheet ESTIMATE (INPUT)), used by
the witnesses and counterexamples below. -/

/-- A complete source reference object. -/
def sovSource : Json := jobj [("source_type", Json.str "bid_pdf"),
  ("source_path", Json.str "/bids/a.pdf"), ("locator", Json.str "p1"), ("notes", Json.str "")]

/-- A complete meta object. -/
def sovMeta : Json := jobj [("project", Json.str "P"), ("option", Json.str "1"),
  ("trade", Json.str "electrical"), ("bucket_code", Json.str "16000"),
  ("line_id", Json.str "L1"), ("note", Json.str "")]

/-- A fully populated planned write at the given cell on the governing
sheet. -/
def sovWrite (cell : String) : Json := jobj [("sheet", Json.str "ESTIMATE (INPUT)"),
  ("cell", Json.str cell), ("value", Json.num 12345), ("source", sovSource), ("meta", sovMeta)]

/-- The scenario lock of spec section 8: allowed I, denied T. -/
def lockTI : Lock := { template_sha256 := "TESTSHA", governing_sheet := "ESTIMATE (INPUT)", row_first := 13, row_last := 220, allowed_columns := ["I"], denied_columns := ["T"] }

/-- The same lock with column A allowed instead, for the leading-zero
cell experiments. -/
def lockTA : Lock := { template_sha256 := "TESTSHA", governing_sheet := "ESTIMATE (INPUT)", row_first := 13, row_last := 220, allowed_columns := ["A"], denied_columns := ["T"] }

/-- A plan over the given writes with matching template sha and a
correctly computed plan_hash. -/
def planWith (ws : List Json) : JsonFields := JsonFields.ofList [
  ("template_sha256", Json.str "TESTSHA"),
  ("plan_hash", Json.str (sha256_json_ascii (jarr ws))),
  ("writes", jarr ws)]

/-- A plan over the given writes with matching template sha and no
plan_hash at all. -/
def planNoHash (ws : List Json) : JsonFields := JsonFields.ofList [
  ("template_sha256", Json.str "TESTSHA"),
  ("writes", jarr ws)]

/-! ## Claim C3 -/

set_option maxHeartbeats 1000000 in
/-- Claim C3 — for every plan whose plan_hash field is missing or differs
from the sha256 of the canonical JSON of its writes list, the Apply
Driver aborts with exit status 2 before the LockedSOVWriter is
constructed and before any cell is written, and the audit log stays
empty: the run result is exactly fatalRun (exit code 2, no audit records,
no save, writer never made). -/
theorem c3_tamper_aborts_before_writer (envGate : Bool) (plan : JsonFields) (lock : Lock)
    (doc : Document)
    (h : pyGet plan "plan_hash" = none ∨
      ∀ wsJ, pyGet plan "writes" = some (Json.arr wsJ) →
        pyGet plan "plan_hash" ≠ some (Json.str (sha256_json_ascii (Json.arr wsJ)))) :
    applyDriver envGate plan lock doc = fatalRun := by
  suffices hg : driverGates envGate plan lock = GateOut.fatal by
    unfold applyDriver
    rw [hg]
  by_cases he : envGate = false
  · simp [driverGates, he]
  by_cases hsha : pyGet plan "template_sha256" ≠ some (Json.str lock.template_sha256)
  · simp [driverGates, he, hsha]
  cases hwv : (pyGet plan "writes").getD (jarr []) with
  | arr wsJ =>
      by_cases hemp : wsJ.toList = []
      · simp [driverGates, he, hsha, hwv, hemp]
      by_cases hth : jtruthyOpt (pyGet plan "plan_hash") = false
      · simp [driverGates, he, hsha, hwv, hemp, hth]
      have hEq : pyGet plan "plan_hash" ≠ some (Json.str (sha256_json_ascii (Json.arr wsJ))) := by
        rcases h with hnone | hall
        · rw [hnone]; simp
        · exact hall wsJ (writes_getD_some hwv hemp)
      simp [driverGates, he, hsha, hwv, hemp, hth, hEq]
  | null => simp [driverGates, he, hsha, hwv]
  | bool b => simp [driverGates, he, hsha, hwv]
  | num n => simp [driverGates, he, hsha, hwv]
  | str s => simp [driverGates, he, hsha, hwv]
  | obj o => simp [driverGates, he, hsha, hwv]

/-- Witness for C3: a concrete run on a plan missing its plan_hash aborts
exactly as fatalRun, with the hypothesis discharged at the missing-hash
disjunct. -/
theorem c3_tamper_aborts_before_writer_witness :
    applyDriver true (planNoHash [sovWrite "I50"]) lockTI [] = fatalRun :=
  c3_tamper_aborts_before_writer true (planNoHash [sovWrite "I50"]) lockTI []
    (Or.inl (by decide))

/-! ## Claim C10 -/

/-- A write shaped so that the preflight loop cannot raise on it: an
object whose cell value, if present and truthy, is a string.  This is
the well-formedness the data model of the spec gives every PlannedWrite
(cell is an A1 address string). -/
def pfSafeWrite (w : Json) : Bool :=
  match w with
  | Json.obj kvs =>
      match pyGet kvs "cell" with
      | some (Json.str _) => true
      | some v => !jtruthy v
      | none => true
  | _ => false

/-- The duplicate-target Counter materializes whenever every write is an
object. -/
theorem getTargets_safe {ws : List Json} (hwf : ∀ w ∈ ws, pfSafeWrite w = true) :
    ∃ ts, getTargets ws = some ts := by
  induction ws with
  | nil => exact ⟨[], rfl⟩
  | cons w rest ih =>
      have hw := hwf w (by simp)
      cases w
      case obj kvs =>
          obtain ⟨ts, hts⟩ := ih (fun x hx => hwf x (by simp [hx]))
          exact ⟨(pyGet kvs "sheet", pyGet kvs "cell") :: ts, by simp [getTargets, hts]⟩
      all_goals simp [pfSafeWrite] at hw

/-- If some write carries a cell string whose stripped form begins with
the letter T, the preflight loop always ends in the fatal stop: the cell
either fails RX_CELL or trips the startswith guard, and every earlier
failure is also fatal. -/
theorem preflight_fatal_of_T {ws : List Json}
    (hwf : ∀ w ∈ ws, pfSafeWrite w = true)
    (hT : ∃ w ∈ ws, ∃ kvs s, w = Json.obj kvs ∧ pyGet kvs "cell" = some (Json.str s) ∧
      pyStartsWith (pyStrip s) "T" = true) :
    preflightWrites ws = PFOut.fatalStop := by
  induction ws with
  | nil => simp at hT
  | cons w rest ih =>
      obtain ⟨w0, hw0mem, kvs0, s0, hw0, hcell0, hT0⟩ := hT
      have hwfw := hwf w (by simp)
      cases w
      case obj kvs =>
          rcases List.mem_cons.mp hw0mem with heq0 | hmem0
          · rw [heq0] at hw0
            injection hw0 with hkvs
            subst hkvs
            by_cases hrx : rxCellMatch (pyStrip s0) = false
            · simp [preflightWrites, hcell0, hrx]
            · simp [preflightWrites, hcell0, hrx, hT0]
          · have ihres := ih (fun x hx => hwf x (by simp [hx]))
              ⟨w0, hmem0, kvs0, s0, hw0, hcell0, hT0⟩
            cases hcell : pyGet kvs "cell" with
            | none =>
                simp [preflightWrites, hcell, show rxCellMatch (pyStrip "") = false from by decide]
            | some v =>
                cases v
                case str sv =>
                    by_cases hrx : rxCellMatch (pyStrip sv) = false
                    · simp [preflightWrites, hcell, hrx]
                    by_cases hTW : pyStartsWith (pyStrip sv) "T" = true
                    · simp [preflightWrites, hcell, hrx, hTW]
                    by_cases hm : jtruthyOpt (pyGet kvs "meta") = false
                    · simp [preflightWrites, hcell, hrx, hTW, hm]
                    by_cases hs : jtruthyOpt (pyGet kvs "source") = false
                    · simp [preflightWrites, hcell, hrx, hTW, hm, hs]
                    · simp [preflightWrites, hcell, hrx, hTW, hm, hs, ihres]
                case null =>
                    simp [preflightWrites, hcell, jtruthy,
                      show rxCellMatch (pyStrip "") = false from by decide]
                case bool b =>
                    have htr : jtruthy (Json.bool b) = false := by
                      simpa [pfSafeWrite, hcell] using hwfw
                    simp [preflightWrites, hcell, htr,
                      show rxCellMatch (pyStrip "") = false from by decide]
                case num n =>
                    have htr : jtruthy (Json.num n) = false := by
                      simpa [pfSafeWrite, hcell] using hwfw
                    simp [preflightWrites, hcell, htr,
                      show rxCellMatch (pyStrip "") = false from by decide]
                case arr xs =>
                    have htr : jtruthy (Json.arr xs) = false := by
                      simpa [pfSafeWrite, hcell] using hwfw
                    simp [preflightWrites, hcell, htr,
                      show rxCellMatch (pyStrip "") = false from by decide]
                case obj o =>
                    have htr : jtruthy (Json.obj o) = false := by
                      simpa [pfSafeWrite, hcell] using hwfw
                    simp [preflightWrites, hcell, htr,
                      show rxCellMatch (pyStrip "") = false from by decide]
      all_goals simp [pfSafeWrite] at hwfw

set_option maxHeartbeats 1000000 in
/-- Claim C10 — any plan containing a write whose cell column letters
begin with T (multi-letter columns such as TA or TX included) makes the
hardened Apply Driver exit with status 2 applying nothing, whatever the
lock policy says: the run result is exactly fatalRun.  Writes are
quantified over data-model shaped cells (pfSafeWrite), the shape every
PlannedWrite has. -/
theorem c10_t_prefix_always_fatal (envGate : Bool) (plan : JsonFields) (lock : Lock)
    (doc : Document) (wsJ : JsonList)
    (hws : pyGet plan "writes" = some (Json.arr wsJ))
    (hwf : ∀ w ∈ wsJ.toList, pfSafeWrite w = true)
    (hT : ∃ w ∈ wsJ.toList, ∃ kvs s, w = Json.obj kvs ∧ pyGet kvs "cell" = some (Json.str s) ∧
      pyStartsWith (pyStrip s) "T" = true) :
    applyDriver envGate plan lock doc = fatalRun := by
  suffices hg : driverGates envGate plan lock = GateOut.fatal by
    unfold applyDriver
    rw [hg]
  by_cases he : envGate = false
  · simp [driverGates, he]
  by_cases hsha : pyGet plan "template_sha256" ≠ some (Json.str lock.template_sha256)
  · simp [driverGates, he, hsha]
  have hwv : (pyGet plan "writes").getD (jarr []) = Json.arr wsJ := by rw [hws]; rfl
  by_cases hemp : wsJ.toList = []
  · simp [driverGates, he, hsha, hwv, hemp]
  by_cases hth : jtruthyOpt (pyGet plan "plan_hash") = false
  · simp [driverGates, he, hsha, hwv, hemp, hth]
  by_cases hEq : pyGet plan "plan_hash" ≠ some (Json.str (sha256_json_ascii (Json.arr wsJ)))
  · simp [driverGates, he, hsha, hwv, hemp, hth, hEq]
  obtain ⟨ts, hts⟩ := getTargets_safe hwf
  by_cases hdup : ts.any (fun t => 1 < ts.count t) = true
  · simp [driverGates, he, hsha, hwv, hemp, hth, hEq, hts, hdup]
  · simp [driverGates, he, hsha, hwv, hemp, hth, hEq, hts, hdup,
      preflight_fatal_of_T hwf hT]

/-- Witness for C10: a concrete plan writing the multi-letter column TA
(cell TA50) under a lock whose policy never mentions TA is refused with
exit status 2 and nothing applied. -/
theorem c10_t_prefix_always_fatal_witness :
    applyDriver true (planWith [sovWrite "TA50"]) lockTI [] = fatalRun :=
  c10_t_prefix_always_fatal true (planWith [sovWrite "TA50"]) lockTI []
    (JsonList.ofList [sovWrite "TA50"]) (by decide) (by decide)
    ⟨sovWrite "TA50", by decide,
      JsonFields.ofList [("sheet", Json.str "ESTIMATE (INPUT)"), ("cell", Json.str "TA50"),
        ("value", Json.num 12345), ("source", sovSource), ("meta", sovMeta)],
      "TA50", rfl, by decide, by decide⟩

/-! ## Claim C4 -/

/-- Characters with equal codepoints are equal. -/
theorem char_eq_of_toNat {a b : Char} (h : a.toNat = b.toNat) : a = b := by
  rw [← Char.ofNat_toNat a, ← Char.ofNat_toNat b, h]

/-- Splitting a list at a predicate boundary: takeWhile returns exactly
the prefix on which the predicate holds when the first element after it
fails the predicate. -/
theorem takeWhile_split {p : Char → Bool} (xs ys : List Char)
    (h1 : ∀ c ∈ xs, p c = true) (h2 : ∀ d ∈ ys.head?, p d = false) :
    (xs ++ ys).takeWhile p = xs ∧ (xs ++ ys).dropWhile p = ys := by
  induction xs with
  | nil =>
      cases ys with
      | nil => exact ⟨rfl, rfl⟩
      | cons d ds =>
          simp [List.takeWhile, List.dropWhile, h2 d rfl]
  | cons x xs ih =>
      have hx := h1 x (by simp)
      have ihr := ih (fun c hc => h1 c (by simp [hc]))
      simp [List.takeWhile, List.dropWhile, hx, ihr.1, ihr.2]

/-- The base-ten accumulator never drops below one once positive. -/
theorem foldl_digits_pos : ∀ (ds : List Char) (a : Nat), 1 ≤ a →
    1 ≤ ds.foldl (fun a c => 10 * a + (c.toNat - 48)) a := by
  intro ds
  induction ds with
  | nil => intro a ha; simpa using ha
  | cons d ds ih =>
      intro a ha
      simp only [List.foldl]
      exact ih _ (by omega)

/-- A digit string with a nonzero leading digit has positive value. -/
theorem natOfDigits_pos {d : Char} {ds : List Char}
    (hd : isDigit09 d = true) (h0 : d ≠ '0') : 1 ≤ natOfDigits (d :: ds) := by
  have hb : 48 ≤ d.toNat ∧ d.toNat ≤ 57 := by
    simp [isDigit09] at hd
    exact hd
  have hne : d.toNat ≠ 48 := by
    intro hc
    exact h0 (char_eq_of_toNat (by simpa using hc))
  unfold natOfDigits
  simp only [List.foldl]
  exact foldl_digits_pos ds _ (by omega)

/-- An uppercase letter is not the dollar sign. -/
theorem upper_not_dollar {c : Char} (h : isUpperAZ c = true) : c ≠ '$' := by
  intro hc
  subst hc
  simp [isUpperAZ] at h

/-- An uppercase letter is an ASCII letter. -/
theorem upper_is_letter {c : Char} (h : isUpperAZ c = true) : isAsciiLetter c = true := by
  simp [isAsciiLetter, h]

/-- A digit is not an ASCII letter. -/
theorem digit_not_letter {c : Char} (h : isDigit09 c = true) : isAsciiLetter c = false := by
  simp [isDigit09] at h
  simp [isAsciiLetter, isUpperAZ]
  omega

/-- A digit is not the dollar sign. -/
theorem digit_not_dollar {c : Char} (h : isDigit09 c = true) : c ≠ '$' := by
  intro hc
  subst hc
  simp [isDigit09] at h

/-- A cell address in the spec grammar parses under openpyxl
coordinate_from_string to its uppercase column letters and its positive
row number. -/
theorem specGrammar_parse {s : String} (h : specCellGrammar s = true) :
    coordinate_from_string s = some (colLettersOf s, rowNumberOf s) ∧ 1 ≤ rowNumberOf s := by
  unfold specCellGrammar at h
  simp only [Bool.and_eq_true, decide_eq_true_eq] at h
  obtain ⟨⟨⟨⟨hlen1, hlen3⟩, hrlen⟩, hdig⟩, hhead⟩ := h
  obtain ⟨letters, hlet⟩ : ∃ L, s.data.takeWhile isUpperAZ = L := ⟨_, rfl⟩
  obtain ⟨rest, hrest⟩ : ∃ R, s.data.dropWhile isUpperAZ = R := ⟨_, rfl⟩
  rw [hlet] at hlen1 hlen3
  rw [hrest] at hrlen hdig hhead
  have hsplit : s.data = letters ++ rest := by
    rw [← hlet, ← hrest]
    exact (List.takeWhile_append_dropWhile (p := isUpperAZ) (l := s.data)).symm
  have hletAll : ∀ c ∈ letters, isUpperAZ c = true := by
    intro c hc
    rw [← hlet] at hc
    exact List.mem_takeWhile_imp hc
  have hrestAll : ∀ c ∈ rest, isDigit09 c = true := fun c hc => List.all_eq_true.mp hdig c hc
  have hcol : colLettersOf s = String.mk letters := by rw [colLettersOf, hlet]
  have hrow : rowNumberOf s = natOfDigits rest := by rw [rowNumberOf, hrest]
  cases hr : rest with
  | nil => rw [hr] at hrlen; simp at hrlen
  | cons d ds =>
      subst hr
      have hd09 : isDigit09 d = true := hrestAll d (by simp)
      have hd0 : d ≠ '0' := by simpa using hhead
      cases hl : letters with
      | nil => rw [hl] at hlen1; simp at hlen1
      | cons l ls =>
          subst hl
          have hlUp : isUpperAZ l = true := hletAll l (by simp)
          have hcs : s.data = l :: (ls ++ (d :: ds)) := by rw [hsplit]; simp
          have hl_ne : l ≠ '$' := upper_not_dollar hlUp
          have hSplit2 : s.data.takeWhile isAsciiLetter = l :: ls ∧
              s.data.dropWhile isAsciiLetter = d :: ds := by
            rw [hsplit]
            refine takeWhile_split _ _ (fun c hc => upper_is_letter (hletAll c hc)) ?_
            intro e he
            simp at he
            rw [← he]
            exact digit_not_letter hd09
          have hSplit3 : (d :: ds).takeWhile isDigit09 = d :: ds ∧
              (d :: ds).dropWhile isDigit09 = [] := by
            have := takeWhile_split (p := isDigit09) (d :: ds) []
              (fun c hc => hrestAll c hc) (by simp)
            simpa using this
          have hmatch1 : (match s.data with
              | '$' :: rest => rest
              | cs => cs) = s.data := by
            rw [hcs]
            simp [hl_ne]
          have hmatch2 : (match (d :: ds : List Char) with
              | '$' :: r => r
              | l => l) = d :: ds := by
            simp [digit_not_dollar hd09]
          have hpos : 1 ≤ natOfDigits (d :: ds) := natOfDigits_pos hd09 hd0
          have hc1 : ¬((l :: ls : List Char).length < 1) := by simp
          have hc2 : ¬(3 < (l :: ls : List Char).length) := by omega
          have hc3 : ¬((d :: ds : List Char).length < 1) := by simp
          have hnz : ¬(natOfDigits (d :: ds) = 0) := by omega
          rw [hcol, hrow]
          unfold coordinate_from_string
          simp only [hmatch1, hSplit2.1, hSplit2.2, hmatch2, hSplit3.1, hSplit3.2]
          simp [hc1, hc2, hc3, hnz, hpos]
          simp only [List.length_cons] at hlen3
          omega

/-- The per-write hypotheses of claim C4, as an executable predicate: the
governing sheet, a spec-grammar cell whose row is in the lock span or at
most twelve, a column allowed and not denied, and complete source and
meta objects. -/
def goodWriteB (lock : Lock) (w : Json) : Bool :=
  match w with
  | Json.obj kvs =>
      decide (pyGet kvs "sheet" = some (Json.str lock.governing_sheet)) &&
      (match pyGet kvs "cell" with
       | some (Json.str s) =>
           specCellGrammar s &&
           ((decide (lock.row_first ≤ (rowNumberOf s : Int)) &&
             decide ((rowNumberOf s : Int) ≤ lock.row_last)) ||
            decide (rowNumberOf s ≤ 12)) &&
           decide (colLettersOf s ∈ lock.allowed_columns) &&
           !decide (colLettersOf s ∈ lock.denied_columns)
       | _ => false) &&
      (match pyGet kvs "source" with
       | some (Json.obj skvs) =>
           jtruthyOpt (pyGet skvs "source_type") && jtruthyOpt (pyGet skvs "source_path") &&
           jtruthyOpt (pyGet skvs "locator")
       | _ => false) &&
      (match pyGet kvs "meta" with
       | some (Json.obj mkvs) =>
           jtruthyOpt (pyGet mkvs "project") && jtruthyOpt (pyGet mkvs "option") &&
           jtruthyOpt (pyGet mkvs "trade") && jtruthyOpt (pyGet mkvs "bucket_code") &&
           jtruthyOpt (pyGet mkvs "line_id")
       | _ => false)
  | _ => false

/-- A write satisfying the C4 hypotheses contributes no violation. -/
theorem writeViolations_ok_of_good {lock : Lock} {w : Json} (i : Nat)
    (h : goodWriteB lock w = true) : writeViolations lock i w = Except.ok [] := by
  cases w
  case obj kvs =>
      unfold goodWriteB at h
      simp only [Bool.and_eq_true, decide_eq_true_eq] at h
      obtain ⟨⟨⟨hsheet, hcell⟩, hsrc⟩, hmeta⟩ := h
      have hsheetE : sheetErrs lock i kvs = [] := by simp [sheetErrs, hsheet]
      have hafter : afterSheetErrs lock i kvs = [] := by
        cases hc : pyGet kvs "cell" with
        | none => rw [hc] at hcell; simp at hcell
        | some v =>
            cases v
            case str s =>
                rw [hc] at hcell
                simp only [Bool.and_eq_true, Bool.or_eq_true, Bool.not_eq_true',
                  decide_eq_true_eq, decide_eq_false_iff_not] at hcell
                obtain ⟨⟨⟨hgr, hrow⟩, hcolA⟩, hcolD⟩ := hcell
                have hsne : s ≠ "" := by
                  intro he
                  rw [he] at hgr
                  exact absurd hgr (by decide)
                obtain ⟨hparse, hpos⟩ := specGrammar_parse hgr
                have hrowE : rowErrs lock i (rowNumberOf s) = [] := by
                  rcases hrow with ⟨h1, h2⟩ | h12
                  · unfold rowErrs
                    rw [if_neg (by omega)]
                  · unfold rowErrs
                    split
                    · rw [if_neg (by omega)]
                    · rfl
                have hcolE : colErrs lock i (colLettersOf s) = [] := by
                  simp [colErrs, hcolA, hcolD]
                have hsrcE : srcErrs i kvs = [] := by
                  cases hs : pyGet kvs "source" with
                  | none => rw [hs] at hsrc; simp at hsrc
                  | some sv =>
                      cases sv
                      case obj skvs =>
                          rw [hs] at hsrc
                          simp only [Bool.and_eq_true] at hsrc
                          obtain ⟨⟨h1, h2⟩, h3⟩ := hsrc
                          have hnn : skvs ≠ JsonFields.nil := by
                            intro he
                            rw [he] at h1
                            simp [pyGet, jget, jtruthyOpt] at h1
                          simp [srcErrs, hs, hnn, h1, h2, h3]
                      all_goals (rw [hs] at hsrc; simp at hsrc)
                have hmetaE : metaErrs i kvs = [] := by
                  cases hm : pyGet kvs "meta" with
                  | none => rw [hm] at hmeta; simp at hmeta
                  | some mv =>
                      cases mv
                      case obj mkvs =>
                          rw [hm] at hmeta
                          simp only [Bool.and_eq_true] at hmeta
                          obtain ⟨⟨⟨⟨h1, h2⟩, h3⟩, h4⟩, h5⟩ := hmeta
                          have hnn : mkvs ≠ JsonFields.nil := by
                            intro he
                            rw [he] at h1
                            simp [pyGet, jget, jtruthyOpt] at h1
                          simp [metaErrs, hm, hnn, h1, h2, h3, h4, h5]
                      all_goals (rw [hm] at hmeta; simp at hmeta)
                unfold afterSheetErrs
                rw [hc]
                simp [hsne, hparse, hrowE, hcolE, hsrcE, hmetaE]
            all_goals (rw [hc] at hcell; simp at hcell)
      simp [writeViolations, hsheetE, hafter]
  all_goals (unfold goodWriteB at h; simp at h)

/-- A list of writes each satisfying the C4 hypotheses contributes no
violation. -/
theorem validateWrites_ok_of_good {lock : Lock} : ∀ (i : Nat) (ws : List Json),
    (∀ w ∈ ws, goodWriteB lock w = true) → validateWrites lock i ws = Except.ok [] := by
  intro i ws
  induction ws generalizing i with
  | nil => intro _; rfl
  | cons w rest ih =>
      intro hgood
      have hw := writeViolations_ok_of_good i (hgood w (by simp))
      have hr := ih (i + 1) (fun x hx => hgood x (by simp [hx]))
      simp [validateWrites, hw, hr]
      rfl

/-- Claim C4 — for all (plan, lock) with the template sha of the lock, a
non-empty writes list, and every write carrying the governing sheet, a
syntactically valid cell whose row lies in code_row_span or is at most
twelve, a column in allowed_columns and not in denied_columns, a source
with non-empty source_type, source_path and locator, and a meta with
non-empty project, option, trade, bucket_code and line_id, validate_plan
returns the empty list (GO). -/
theorem c4_valid_plan_returns_no_violations (plan : JsonFields) (lock : Lock) (wsJ : JsonList)
    (hsha : pyGet plan "template_sha256" = some (Json.str lock.template_sha256))
    (hws : pyGet plan "writes" = some (Json.arr wsJ))
    (hne : wsJ.toList ≠ [])
    (hgood : ∀ w ∈ wsJ.toList, goodWriteB lock w = true) :
    validate_plan plan lock = Except.ok [] := by
  have hnil : wsJ ≠ JsonList.nil := by
    intro he
    rw [he] at hne
    simp [JsonList.toList] at hne
  unfold validate_plan
  rw [hws]
  simp only [Option.getD_some]
  simp [jtruthy, hnil, hsha, validateWrites_ok_of_good 0 wsJ.toList hgood]
  rfl

/-- Witness for C4: the concrete scenario plan writing I50 validates GO
against the scenario lock. -/
theorem c4_valid_plan_returns_no_violations_witness :
    validate_plan (planWith [sovWrite "I50"]) lockTI = Except.ok [] :=
  c4_valid_plan_returns_no_violations (planWith [sovWrite "I50"]) lockTI
    (JsonList.ofList [sovWrite "I50"]) (by decide) (by decide) (by decide) (by decide)

/-! ## Claim C5 -/

deriving instance DecidableEq for Except

set_option maxRecDepth 100000 in
/-- Counterexample to C5 as stated: adding the T50 write to the valid
scenario plan makes validate() return TWO violations for that write —
the denied-column violation and a not-in-allowed-columns violation — not
one violation in total for the write as the claim asserts. -/
theorem c5_counterexample_two_violations :
    validate_plan (planWith [sovWrite "I50", sovWrite "T50"]) lockTI =
      Except.ok [Violation.colDenied 1 "T", Violation.colNotAllowed 1 "T"] := by decide

set_option maxRecDepth 1000000 in
set_option maxHeartbeats 2000000 in
/-- Claim C5 as amended — the T50 write yields exactly one denied-column
violation plus one not-in-allowed-columns violation (two violations in
total for that write), the plan is NO-GO, and the driver run applies and
saves nothing (exit status 2). -/
theorem c5_amended_denied_column_nogo :
    validate_plan (planWith [sovWrite "I50", sovWrite "T50"]) lockTI =
      Except.ok [Violation.colDenied 1 "T", Violation.colNotAllowed 1 "T"] ∧
    applyDriver true (planWith [sovWrite "I50", sovWrite "T50"]) lockTI [] = fatalRun := by
  exact ⟨by decide, by decide⟩

/-! ## Claim C9 -/

set_option maxRecDepth 1000000 in
set_option maxHeartbeats 2000000 in
/-- Counterexample to C9 as stated: the cell A01 has a leading zero in
its row, so it does not match the spec grammar, yet it passes RX_CELL,
passes validate_plan (openpyxl parses it as row one), and a full driver
run on a plan targeting A01 applies the write and saves the output. -/
theorem c9_counterexample_leading_zero_accepted :
    rxCellMatch "A01" = true ∧ specCellGrammar "A01" = false ∧
    (applyDriver true (planWith [sovWrite "A01"]) lockTA []).exitCode = 0 ∧
    (applyDriver true (planWith [sovWrite "A01"]) lockTA []).saveCount = 1 ∧
    (applyDriver true (planWith [sovWrite "A01"]) lockTA []).applied.length = 1 := by
  refine ⟨by decide, by decide, ?_, ?_, ?_⟩ <;> decide

/-! ## Claim C6 -/

/-- Every violation of the write at an index survives into the result of
the whole loop: the loop never returns early across writes. -/
theorem validateWrites_sub {lock : Lock} : ∀ (ws : List Json) (k : Nat) (res : List Violation),
    validateWrites lock k ws = Except.ok res →
    ∀ j w, ws[j]? = some w →
      ∃ es, writeViolations lock (k + j) w = Except.ok es ∧ ∀ v ∈ es, v ∈ res := by
  intro ws
  induction ws with
  | nil => intro k res _ j w hj; simp at hj
  | cons w0 rest ih =>
      intro k res h j w hj
      unfold validateWrites at h
      cases hw0 : writeViolations lock k w0 with
      | error e => rw [hw0] at h; simp [Bind.bind, Except.bind] at h
      | ok es0 =>
          rw [hw0] at h
          cases hrest : validateWrites lock (k + 1) rest with
          | error e => rw [hrest] at h; simp [Bind.bind, Except.bind] at h
          | ok res1 =>
              rw [hrest] at h
              simp [Bind.bind, Except.bind, pure, Except.pure] at h
              cases j with
              | zero =>
                  simp at hj
                  subst hj
                  exact ⟨es0, by simpa using hw0, fun v hv => by rw [← h]; simp [hv]⟩
              | succ j =>
                  simp at hj
                  obtain ⟨es, hes, hsub⟩ := ih (k + 1) res1 hrest j w hj
                  refine ⟨es, ?_, fun v hv => by rw [← h]; simp [hsub v hv]⟩
                  have : k + 1 + j = k + (j + 1) := by omega
                  rw [← this]
                  exact hes

/-- A writes array with a member is truthy. -/
theorem jtruthy_arr_ne_nil {wsJ : JsonList} (h : wsJ.toList ≠ []) :
    jtruthy (Json.arr wsJ) = true := by
  cases wsJ with
  | nil => simp [JsonList.toList] at h
  | cons x rest => simp [jtruthy]

/-- Violation membership lifted to validate_plan: whenever the validator
returns a list at all, every violation of every write is in it. -/
theorem validate_plan_sub {plan : JsonFields} {lock : Lock} {wsJ : JsonList}
    {res : List Violation}
    (hok : validate_plan plan lock = Except.ok res)
    (hws : pyGet plan "writes" = some (Json.arr wsJ)) :
    ∀ j w, wsJ.toList[j]? = some w →
      ∃ es, writeViolations lock j w = Except.ok es ∧ ∀ v ∈ es, v ∈ res := by
  intro j w hj
  have hne : wsJ.toList ≠ [] := by
    intro he
    rw [he] at hj
    simp at hj
  unfold validate_plan at hok
  rw [hws] at hok
  simp only [Option.getD_some, jtruthy_arr_ne_nil hne] at hok
  simp only [Bool.true_eq_false, if_false] at hok
  cases hvw : validateWrites lock 0 wsJ.toList with
  | error e => rw [hvw] at hok; simp [Bind.bind, Except.bind] at hok
  | ok es1 =>
      rw [hvw] at hok
      simp [Bind.bind, Except.bind] at hok
      obtain ⟨es, hes, hsub⟩ := validateWrites_sub wsJ.toList 0 es1 hvw j w hj
      refine ⟨es, by simpa using hes, fun v hv => ?_⟩
      rw [← hok]
      simp [hsub v hv]

/-- The openpyxl parser rejects the empty string. -/
theorem coordinate_empty : coordinate_from_string "" = none := by decide

/-- A parsed cell in a denied column puts its LOCKED violation into the
violations of its write. -/
theorem afterSheet_denied_mem {lock : Lock} {kvs : JsonFields} {s : String}
    {col : String} {row : Nat} (i : Nat)
    (hc : pyGet kvs "cell" = some (Json.str s))
    (hp : coordinate_from_string s = some (col, row))
    (hd : col ∈ lock.denied_columns) :
    Violation.colDenied i col ∈ afterSheetErrs lock i kvs := by
  have hsne : s ≠ "" := by
    intro he
    rw [he, coordinate_empty] at hp
    exact absurd hp (by simp)
  unfold afterSheetErrs
  rw [hc]
  simp only [hsne, if_false, hp]
  simp [colErrs, hd]

set_option maxRecDepth 100000 in
/-- Counterexample to C6 as stated: a write that breaks three rules at
once (no cell, no source, no meta) contributes exactly ONE violation —
the missing-cell one — because the loop skips the remaining checks of a
write once its cell is missing or unparseable; the claim that every
broken rule of every write contributes its own violation is false. -/
theorem c6_counterexample_cell_short_circuit :
    validate_plan
        (planWith [jobj [("sheet", Json.str "ESTIMATE (INPUT)")], sovWrite "T50"]) lockTI =
      Except.ok [Violation.missingCell 0, Violation.colDenied 1 "T",
        Violation.colNotAllowed 1 "T"] := by decide

/-- Claim C6 as amended — validate_plan accumulates violations across all
writes and never stops early at a failing write: whenever it returns a
violation list at all, any write whose cell parses to a denied column
contributes a LOCKED violation naming that column at that write index,
no matter what violations other writes produced.  (Within one write, a
missing or unparseable cell does short-circuit that write, as the
counterexample shows.) -/
theorem c6_amended_denied_always_reported {plan : JsonFields} {lock : Lock} {wsJ : JsonList}
    {res : List Violation} {j : Nat} {kvs : JsonFields} {s col : String} {row : Nat}
    (hok : validate_plan plan lock = Except.ok res)
    (hws : pyGet plan "writes" = some (Json.arr wsJ))
    (hj : wsJ.toList[j]? = some (Json.obj kvs))
    (hc : pyGet kvs "cell" = some (Json.str s))
    (hp : coordinate_from_string s = some (col, row))
    (hd : col ∈ lock.denied_columns) :
    Violation.colDenied j col ∈ res := by
  obtain ⟨es, hes, hsub⟩ := validate_plan_sub hok hws j (Json.obj kvs) hj
  apply hsub
  unfold writeViolations at hes
  have : es = sheetErrs lock j kvs ++ afterSheetErrs lock j kvs := by
    injection hes with h
    exact h.symm
  rw [this]
  simp [afterSheet_denied_mem j hc hp hd]

set_option maxRecDepth 100000 in
/-- Witness for the amended C6: in the two-write plan whose first write
is missing its cell, the LOCKED violation of the second write (T50) is
reported at index one despite the earlier failing write. -/
theorem c6_amended_denied_always_reported_witness :
    Violation.colDenied 1 "T" ∈ [Violation.missingCell 0, Violation.colDenied 1 "T",
      Violation.colNotAllowed 1 "T"] :=
  @c6_amended_denied_always_reported
    (planWith [jobj [("sheet", Json.str "ESTIMATE (INPUT)")], sovWrite "T50"]) lockTI
    (JsonList.ofList [jobj [("sheet", Json.str "ESTIMATE (INPUT)")], sovWrite "T50"])
    [Violation.missingCell 0, Violation.colDenied 1 "T", Violation.colNotAllowed 1 "T"]
    1
    (JsonFields.ofList [("sheet", Json.str "ESTIMATE (INPUT)"), ("cell", Json.str "T50"),
      ("value", Json.num 12345), ("source", sovSource), ("meta", sovMeta)])
    "T50" "T" 50
    (by decide) (by decide) (by decide) (by decide) (by decide) (by decide)

/-! ## Claim C9, amended part -/

/-- A preflight-safe write is an object. -/
theorem pfSafe_obj {w : Json} (h : pfSafeWrite w = true) : ∃ kvs, w = Json.obj kvs := by
  cases w
  case obj kvs => exact ⟨kvs, rfl⟩
  all_goals simp [pfSafeWrite] at h

/-- On data-model shaped writes the preflight loop never raises. -/
theorem preflight_no_crash {ws : List Json} (hwf : ∀ w ∈ ws, pfSafeWrite w = true) :
    preflightWrites ws ≠ PFOut.crashStop := by
  induction ws with
  | nil => simp [preflightWrites]
  | cons w rest ih =>
      have hw := hwf w (by simp)
      have ihres := ih (fun x hx => hwf x (by simp [hx]))
      obtain ⟨kvs, hk⟩ := pfSafe_obj hw
      subst hk
      cases hcell : pyGet kvs "cell" with
      | none =>
          simp [preflightWrites, hcell, show rxCellMatch (pyStrip "") = false from by decide]
      | some v =>
          cases v
          case str sv =>
              by_cases hrx : rxCellMatch (pyStrip sv) = false
              · simp [preflightWrites, hcell, hrx]
              by_cases hTW : pyStartsWith (pyStrip sv) "T" = true
              · simp [preflightWrites, hcell, hrx, hTW]
              by_cases hm : jtruthyOpt (pyGet kvs "meta") = false
              · simp [preflightWrites, hcell, hrx, hTW, hm]
              by_cases hsrc : jtruthyOpt (pyGet kvs "source") = false
              · simp [preflightWrites, hcell, hrx, hTW, hm, hsrc]
              · simp [preflightWrites, hcell, hrx, hTW, hm, hsrc, ihres]
          case null =>
              simp [preflightWrites, hcell, jtruthy,
                show rxCellMatch (pyStrip "") = false from by decide]
          case bool b =>
              have htr : jtruthy (Json.bool b) = false := by
                simpa [pfSafeWrite, hcell] using hw
              simp [preflightWrites, hcell, htr,
                show rxCellMatch (pyStrip "") = false from by decide]
          case num n =>
              have htr : jtruthy (Json.num n) = false := by
                simpa [pfSafeWrite, hcell] using hw
              simp [preflightWrites, hcell, htr,
                show rxCellMatch (pyStrip "") = false from by decide]
          case arr xs =>
              have htr : jtruthy (Json.arr xs) = false := by
                simpa [pfSafeWrite, hcell] using hw
              simp [preflightWrites, hcell, htr,
                show rxCellMatch (pyStrip "") = false from by decide]
          case obj o =>
              have htr : jtruthy (Json.obj o) = false := by
                simpa [pfSafeWrite, hcell] using hw
              simp [preflightWrites, hcell, htr,
                show rxCellMatch (pyStrip "") = false from by decide]

/-- On object writes the validator loop always returns a list. -/
theorem validateWrites_total {lock : Lock} : ∀ (ws : List Json) (k : Nat),
    (∀ w ∈ ws, ∃ kvs, w = Json.obj kvs) →
    ∃ res, validateWrites lock k ws = Except.ok res := by
  intro ws
  induction ws with
  | nil => exact fun k _ => ⟨[], rfl⟩
  | cons w rest ih =>
      intro k hobj
      obtain ⟨kvs, hk⟩ := hobj w (by simp)
      subst hk
      obtain ⟨res1, hres1⟩ := ih (k + 1) (fun x hx => hobj x (by simp [hx]))
      refine ⟨sheetErrs lock k kvs ++ afterSheetErrs lock k kvs ++ res1, ?_⟩
      simp [validateWrites, writeViolations, hres1, Bind.bind, Except.bind]
      rfl

/-- On a plan whose writes are a non-empty array of objects,
validate_plan always returns a list. -/
theorem validate_plan_total {plan : JsonFields} {lock : Lock} {wsJ : JsonList}
    (hws : pyGet plan "writes" = some (Json.arr wsJ))
    (hne : wsJ.toList ≠ [])
    (hobj : ∀ w ∈ wsJ.toList, ∃ kvs, w = Json.obj kvs) :
    ∃ res, validate_plan plan lock = Except.ok res := by
  obtain ⟨res1, hres1⟩ := @validateWrites_total lock wsJ.toList 0 hobj
  refine ⟨(if pyGet plan "template_sha256" = some (Json.str lock.template_sha256) then []
    else [Violation.shaMismatch]) ++ res1, ?_⟩
  unfold validate_plan
  rw [hws]
  simp only [Option.getD_some, jtruthy_arr_ne_nil hne]
  simp [hres1, Bind.bind, Except.bind]

/-- A write whose cell string openpyxl cannot parse contributes at least
one violation (missing cell for the empty string, invalid address
otherwise). -/
theorem afterSheet_badcell_ne {lock : Lock} {kvs : JsonFields} {s : String} (i : Nat)
    (hc : pyGet kvs "cell" = some (Json.str s))
    (hp : coordinate_from_string s = none) :
    ∃ v, v ∈ afterSheetErrs lock i kvs := by
  by_cases hsne : s = ""
  · subst hsne
    exact ⟨Violation.missingCell i, by simp [afterSheetErrs, hc]⟩
  · refine ⟨Violation.invalidCell i s, ?_⟩
    unfold afterSheetErrs
    rw [hc]
    simp only [hsne, if_false, hp]
    simp

set_option maxHeartbeats 1000000 in
/-- Claim C9 as amended — the two acceptance layers are RX_CELL (letters
then one to five digits, row zero and leading zeros included) and the
openpyxl parse inside validate_plan (any row the parser accepts, leading
zeros included, row zero excluded).  Hence a write whose cell openpyxl
rejects — every row-zero cell such as A0 in particular — aborts the run
with exit status 2 before any cell is written and before the writer is
constructed; but leading-zero rows such as A01 pass both layers and are
written (see the counterexample). -/
theorem c9_amended_unparseable_cell_rejected (envGate : Bool) (plan : JsonFields) (lock : Lock) (doc : Document)
    (wsJ : JsonList) (j : Nat) (kvs : JsonFields) (s : String)
    (hws : pyGet plan "writes" = some (Json.arr wsJ))
    (hwf : ∀ w ∈ wsJ.toList, pfSafeWrite w = true)
    (hj : wsJ.toList[j]? = some (Json.obj kvs))
    (hc : pyGet kvs "cell" = some (Json.str s))
    (hp : coordinate_from_string s = none) :
    applyDriver envGate plan lock doc = fatalRun := by
  suffices hg : driverGates envGate plan lock = GateOut.fatal by
    unfold applyDriver
    rw [hg]
  have hne : wsJ.toList ≠ [] := by
    intro he
    rw [he] at hj
    simp at hj
  by_cases he : envGate = false
  · simp [driverGates, he]
  by_cases hsha : pyGet plan "template_sha256" ≠ some (Json.str lock.template_sha256)
  · simp [driverGates, he, hsha]
  have hwv : (pyGet plan "writes").getD (jarr []) = Json.arr wsJ := by rw [hws]; rfl
  by_cases hth : jtruthyOpt (pyGet plan "plan_hash") = false
  · simp [driverGates, he, hsha, hwv, hne, hth]
  by_cases hEq : pyGet plan "plan_hash" ≠ some (Json.str (sha256_json_ascii (Json.arr wsJ)))
  · simp [driverGates, he, hsha, hwv, hne, hth, hEq]
  obtain ⟨ts, hts⟩ := getTargets_safe hwf
  by_cases hdup : ts.any (fun t => 1 < ts.count t) = true
  · simp [driverGates, he, hsha, hwv, hne, hth, hEq, hts, hdup]
  cases hpf : preflightWrites wsJ.toList with
  | crashStop => exact absurd hpf (preflight_no_crash hwf)
  | fatalStop => simp [driverGates, he, hsha, hwv, hne, hth, hEq, hts, hdup, hpf]
  | pass =>
      obtain ⟨errs, herrs⟩ := validate_plan_total hws hne
        (fun w hw => pfSafe_obj (hwf w hw))
      obtain ⟨es, hes, hsub⟩ := validate_plan_sub herrs hws j (Json.obj kvs) hj
      obtain ⟨v, hv⟩ := afterSheet_badcell_ne j hc hp
      have hvin : v ∈ errs := by
        apply hsub
        unfold writeViolations at hes
        have : es = sheetErrs lock j kvs ++ afterSheetErrs lock j kvs := by
          injection hes with h2
          exact h2.symm
        rw [this]
        simp
        exact Or.inr hv
      have hno : errs ≠ [] := by
        intro he2
        rw [he2] at hvin
        simp at hvin
      simp [driverGates, he, hsha, hwv, hne, hth, hEq, hts, hdup, hpf, herrs, hno]

/-- Witness for the amended C9: the concrete plan targeting the row-zero
cell A0 is rejected with exit status 2, nothing applied, no writer. -/
theorem c9_amended_unparseable_cell_rejected_witness :
    applyDriver true (planWith [sovWrite "A0"]) lockTA [] = fatalRun :=
  c9_amended_unparseable_cell_rejected true (planWith [sovWrite "A0"]) lockTA []
    (JsonList.ofList [sovWrite "A0"]) 0
    (JsonFields.ofList [("sheet", Json.str "ESTIMATE (INPUT)"), ("cell", Json.str "A0"),
      ("value", Json.num 12345), ("source", sovSource), ("meta", sovMeta)])
    "A0" (by decide) (by decide) (by decide) (by decide) (by decide)

/-! ## Claim C7 -/

set_option maxRecDepth 1000000 in
set_option maxHeartbeats 2000000 in
/-- Counterexample to C7 as stated: a structurally sound candidate whose
existing plan_hash does not match the hash of its writes is NOT rejected
by batch repair — it is listed as ready, unchanged and unverified.  The
second conjunct shows the stored hash really mismatches. -/
theorem c7_counterexample_mismatch_listed_ready :
    processCandidate (jobj [("template_sha256", Json.str "TESTSHA"),
        ("plan_hash", Json.str "deadbeef"), ("writes", jarr [sovWrite "I50"])])
      (some "TESTSHA") = BatchOut.readyOriginal ∧
    sha256_json_noascii (jarr [sovWrite "I50"]) ≠ "deadbeef" := by
  exact ⟨by decide, by decide⟩

/-- Claim C7 as amended — the only mutation batch repair ever applies is
backfilling a falsy (absent or empty) plan_hash, and only then: a fixed
candidate is exactly the original dict with the freshly computed
plan_hash set, written to the separate ready directory; a candidate that
reaches the ready list as its original file always had a truthy
plan_hash, which batch repair never compares to the writes — a
mismatching existing hash is listed ready unchanged (it fails later at
the tamper gate of the Apply Driver, not here). -/
theorem c7_amended_backfill_only_mutation (pkvs : JsonFields) (lockSha : Option String) :
    (∀ out, processCandidate (Json.obj pkvs) lockSha = BatchOut.readyFixed out →
       jtruthyOpt (pyGet pkvs "plan_hash") = false ∧
       ∃ wsJ, pyGet pkvs "writes" = some (Json.arr wsJ) ∧
         out = jset pkvs "plan_hash" (Json.str (sha256_json_noascii (Json.arr wsJ)))) ∧
    (processCandidate (Json.obj pkvs) lockSha = BatchOut.readyOriginal →
       jtruthyOpt (pyGet pkvs "plan_hash") = true) := by
  constructor
  · intro out h
    unfold processCandidate at h
    repeat' split at h
    all_goals simp_all
  · intro h
    unfold processCandidate at h
    repeat' split at h
    all_goals simp_all

/-- Witness for the amended C7: the mismatching-hash candidate that went
to the ready list as its original file indeed had a truthy plan_hash. -/
theorem c7_amended_backfill_only_mutation_witness :
    jtruthyOpt (pyGet (JsonFields.ofList [("template_sha256", Json.str "TESTSHA"),
      ("plan_hash", Json.str "deadbeef"), ("writes", jarr [sovWrite "I50"])]) "plan_hash") = true :=
  (c7_amended_backfill_only_mutation
    (JsonFields.ofList [("template_sha256", Json.str "TESTSHA"),
      ("plan_hash", Json.str "deadbeef"), ("writes", jarr [sovWrite "I50"])])
    (some "TESTSHA")).2 (by decide)

/-! ## Claim C8 -/

set_option maxRecDepth 1000000 in
set_option maxHeartbeats 4000000 in
/-- Claim C8 is contradicted by the code (code bug): the two sha256_json
functions disagree on non-ASCII content because only the batch one
passes ensure_ascii=False.  On a writes list whose meta note holds the
word cafe with an accented e, the driver-side digest (over the
backslash-u escaped dump) differs from the batch-side digest (over the
UTF-8 dump), so a plan backfilled by batch repair with that hash is
rejected by the tamper gate of the Apply Driver.  On the plain-ASCII
variant of the same writes list the two digests agree. -/
theorem c8_code_bug_hash_drift_on_non_ascii :
    sha256_json_ascii (jarr [jobj [("cell", Json.str "I50"),
        ("meta", jobj [("note", Json.str "café")]), ("sheet", Json.str "S")]]) ≠
      sha256_json_noascii (jarr [jobj [("cell", Json.str "I50"),
        ("meta", jobj [("note", Json.str "café")]), ("sheet", Json.str "S")]]) ∧
    sha256_json_ascii (jarr [jobj [("cell", Json.str "I50"),
        ("meta", jobj [("note", Json.str "cafe")]), ("sheet", Json.str "S")]]) =
      sha256_json_noascii (jarr [jobj [("cell", Json.str "I50"),
        ("meta", jobj [("note", Json.str "cafe")]), ("sheet", Json.str "S")]]) := by
  exact ⟨by decide, by decide⟩

/-! ## Claim C1 -/

/-- A raw string lookup is stable under the None collapse. -/
theorem jget_str_pyGet {kvs : JsonFields} {k : String} {s : String}
    (h : jget kvs k = some (Json.str s)) : pyGet kvs k = some (Json.str s) := by
  unfold pyGet
  rw [h]

/-- Inversion of a violation-free write: it is an object on the
governing sheet whose cell string parses. -/
theorem writeViolations_nil_inv {lock : Lock} {j : Nat} {w : Json}
    (h : writeViolations lock j w = Except.ok []) :
    ∃ kvs s col row, w = Json.obj kvs ∧
      pyGet kvs "sheet" = some (Json.str lock.governing_sheet) ∧
      pyGet kvs "cell" = some (Json.str s) ∧
      coordinate_from_string s = some (col, row) := by
  cases w
  case obj kvs =>
      unfold writeViolations at h
      injection h with happ
      have hboth := List.append_eq_nil.mp happ
      have hsheet : pyGet kvs "sheet" = some (Json.str lock.governing_sheet) := by
        have := hboth.1
        unfold sheetErrs at this
        by_cases hs : pyGet kvs "sheet" = some (Json.str lock.governing_sheet)
        · exact hs
        · rw [if_neg hs] at this; simp at this
      have hafter := hboth.2
      unfold afterSheetErrs at hafter
      cases hc : pyGet kvs "cell" with
      | none => rw [hc] at hafter; simp at hafter
      | some v =>
          cases v
          case str s =>
              rw [hc] at hafter
              by_cases hse : s = ""
              · simp [hse] at hafter
              · simp only [hse, if_false] at hafter
                cases hp : coordinate_from_string s with
                | none => rw [hp] at hafter; simp at hafter
                | some cr =>
                    exact ⟨kvs, s, cr.1, cr.2, rfl, hsheet, hc, by rw [hp]⟩
          all_goals (rw [hc] at hafter; simp at hafter)
  all_goals (unfold writeViolations at h; simp at h)

/-- The Counter targets list mirrors the writes list index by index. -/
theorem getTargets_corr : ∀ (ws : List Json) (ts : List (Option Json × Option Json)),
    getTargets ws = some ts →
    ts.length = ws.length ∧
    ∀ (j : Nat) (kvs : JsonFields), ws[j]? = some (Json.obj kvs) →
      ts[j]? = some (pyGet kvs "sheet", pyGet kvs "cell") := by
  intro ws
  induction ws with
  | nil =>
      intro ts h
      simp [getTargets] at h
      subst h
      refine ⟨rfl, ?_⟩
      intro j kvs hj
      simp at hj
  | cons w rest ih =>
      intro ts h
      cases w
      case obj kvs0 =>
          unfold getTargets at h
          cases hr : getTargets rest with
          | none => rw [hr] at h; simp at h
          | some ts1 =>
              rw [hr] at h
              simp at h
              obtain ⟨hlen, hcorr⟩ := ih ts1 hr
              subst h
              constructor
              · simp [hlen]
              · intro j kvs hj
                cases j with
                | zero =>
                    simp at hj
                    subst hj
                    simp
                | succ j =>
                    simp at hj
                    simpa using hcorr j kvs hj
      all_goals (unfold getTargets at h; simp at h)

/-- Two distinct positions holding the same element force a count of at
least two. -/
theorem two_idx_two_le_count {α : Type} [BEq α] [LawfulBEq α] :
    ∀ (l : List α) (i j : Nat) (t : α), i < j → l[i]? = some t → l[j]? = some t →
      2 ≤ l.count t := by
  intro l
  induction l with
  | nil => intro i j t _ hi _; simp at hi
  | cons x rest ih =>
      intro i j t hij hi hj
      cases j with
      | zero => omega
      | succ j =>
          simp at hj
          cases i with
          | zero =>
              simp at hi
              have hmem : t ∈ rest := by
                have := List.getElem?_eq_some_iff.mp hj
                obtain ⟨hlt, hget⟩ := this
                rw [← hget]
                exact List.getElem_mem hlt
              have hpos : 1 ≤ rest.count t := List.count_pos_iff.mpr hmem
              have hx : (x == t) = true := by rw [hi]; simp
              have hx2 : (t == x) = true := by rw [hi]; simp
              rw [List.count_cons]
              simp [hx, hx2]
              exact hmem
          | succ i =>
              have := ih i j t (by omega) (by simpa using hi) hj
              rw [List.count_cons]
              omega

/-- Under the passed duplicate gate, equal targets can only sit at equal
indices. -/
theorem no_dup_check_bound {ts : List (Option Json × Option Json)} {i j : Nat}
    {t : Option Json × Option Json}
    (h : ts.any (fun t => 1 < ts.count t) = false)
    (hi : ts[i]? = some t) (hj : ts[j]? = some t) : i = j := by
  by_cases hij : i = j
  · exact hij
  · exfalso
    have hmem : t ∈ ts := by
      have := List.getElem?_eq_some_iff.mp hi
      obtain ⟨hlt, hget⟩ := this
      rw [← hget]
      exact List.getElem_mem hlt
    have hle := List.any_eq_false.mp h t hmem
    simp at hle
    rcases Nat.lt_or_ge i j with hlt | hge
    · exact absurd (two_idx_two_le_count ts i j t hlt hi hj) (by omega)
    · have hlt2 : j < i := by omega
      exact absurd (two_idx_two_le_count ts j i t hlt2 hj hi) (by omega)

/-- Fail-closed write_cell: on a policy-allowed column whose target cell
is merged or holds a formula string, the call raises, so no cell changes
and no audit record appears. -/
theorem write_cell_blocked {lock : Lock} {doc : Document} {c : String}
    (hallow : colLettersOf c ∈ lock.allowed_columns)
    (hden : colLettersOf c ∉ lock.denied_columns)
    (hbad : (docGet doc c).merged = true ∨ isFormulaVal (docGet doc c).value = true)
    (audit : List AuditRec) (v : Json) (src : SourceRef) (m : Json) :
    write_cell lock doc audit c v src m = Except.error () := by
  unfold write_cell
  rw [if_neg (by tauto)]
  by_cases hmg : (docGet doc c).merged = true
  · rw [if_pos hmg]
  · rw [if_neg hmg, if_pos (hbad.resolve_left hmg)]

/-- Inversion of a successful write_cell: the new document sets exactly
the target cell and exactly one audit record is appended. -/
theorem write_cell_ok_inv {lock : Lock} {doc : Document} {audit : List AuditRec}
    {ca : String} {v : Json} {src : SourceRef} {m : Json} {doc2 : Document}
    {audit2 : List AuditRec}
    (h : write_cell lock doc audit ca v src m = Except.ok (doc2, audit2)) :
    doc2 = docSet doc ca v ∧
    audit2 = audit ++ [⟨ca, (docGet doc ca).value, v, src, m⟩] := by
  simp only [write_cell] at h
  split at h
  · simp at h
  · split at h
    · simp at h
    · split at h
      · simp at h
      · simp at h
        exact ⟨h.1.symm, h.2.symm⟩

/-- The apply loop can never finish when some write targets a blocked
cell whose predecessors all write other cells, and the audit it leaves
behind never mentions the blocked cell. -/
theorem applyWrites_blocked {lock : Lock} {c : String}
    (hallow : colLettersOf c ∈ lock.allowed_columns)
    (hden : colLettersOf c ∉ lock.denied_columns) :
    ∀ (ws : List Json) (doc : Document) (audit : List AuditRec) (i : Nat) (kvs : JsonFields),
    ws[i]? = some (Json.obj kvs) → jget kvs "cell" = some (Json.str c) →
    (∀ (j : Nat) (kvs2 : JsonFields) (c2 : String), j < i → ws[j]? = some (Json.obj kvs2) →
       jget kvs2 "cell" = some (Json.str c2) → c2 ≠ c) →
    ((docGet doc c).merged = true ∨ isFormulaVal (docGet doc c).value = true) →
    (∀ d2 a2, applyWrites lock doc audit ws ≠ ApplyOut.finished d2 a2) ∧
    (∀ rec ∈ (applyWrites lock doc audit ws).audit, rec ∈ audit ∨ rec.cell ≠ c) := by
  intro ws
  induction ws with
  | nil => intro doc audit i kvs hi; simp at hi
  | cons w rest ih =>
      intro doc audit i kvs hi hcell hearlier hbad
      cases i with
      | zero =>
          simp at hi
          subst hi
          cases hm : jget kvs "meta" with
          | none =>
              exact ⟨fun d2 a2 => by simp [applyWrites, hcell, hm],
                fun rec hrec => Or.inl
                  (by simpa [applyWrites, hcell, hm, ApplyOut.audit] using hrec)⟩
          | some meta =>
              have hwc := write_cell_blocked hallow hden hbad audit (_get_write_value kvs)
                (applySrcOf kvs) meta
              exact ⟨fun d2 a2 => by simp [applyWrites, hcell, hm, hwc],
                fun rec hrec => Or.inl
                  (by simpa [applyWrites, hcell, hm, hwc, ApplyOut.audit] using hrec)⟩
      | succ i =>
          simp at hi
          cases w
          case obj kvs0 =>
              cases hc0 : jget kvs0 "cell" with
              | none =>
                  exact ⟨fun d2 a2 => by simp [applyWrites, hc0],
                    fun rec hrec => Or.inl
                      (by simpa [applyWrites, hc0, ApplyOut.audit] using hrec)⟩
              | some v0 =>
                  cases v0
                  case str c0 =>
                      cases hm0 : jget kvs0 "meta" with
                      | none =>
                          exact ⟨fun d2 a2 => by simp [applyWrites, hc0, hm0],
                            fun rec hrec => Or.inl
                              (by simpa [applyWrites, hc0, hm0, ApplyOut.audit] using hrec)⟩
                      | some meta0 =>
                          have hc0ne : c0 ≠ c :=
                            hearlier 0 kvs0 c0 (by omega) (by simp) hc0
                          cases hwc0 : write_cell lock doc audit c0 (_get_write_value kvs0)
                              (applySrcOf kvs0) meta0 with
                          | error e =>
                              exact ⟨fun d2 a2 => by simp [applyWrites, hc0, hm0, hwc0],
                                fun rec hrec => Or.inl
                                  (by simpa [applyWrites, hc0, hm0, hwc0,
                                    ApplyOut.audit] using hrec)⟩
                          | ok pr =>
                              obtain ⟨doc2, audit2⟩ := pr
                              obtain ⟨hdoc2, haudit2⟩ := write_cell_ok_inv hwc0
                              have hbad2 : (docGet doc2 c).merged = true ∨
                                  isFormulaVal (docGet doc2 c).value = true := by
                                rw [hdoc2, docGet_docSet_ne doc (_get_write_value kvs0) hc0ne]
                                exact hbad
                              have hearlier2 : ∀ (j : Nat) (kvs2 : JsonFields) (c2 : String),
                                  j < i → rest[j]? = some (Json.obj kvs2) →
                                  jget kvs2 "cell" = some (Json.str c2) → c2 ≠ c := by
                                intro j kvs2 c2 hj hg hc2
                                exact hearlier (j + 1) kvs2 c2 (by omega) (by simpa using hg) hc2
                              obtain ⟨ihfin, ihaud⟩ := ih doc2 audit2 i kvs hi hcell hearlier2 hbad2
                              have hred : applyWrites lock doc audit (Json.obj kvs0 :: rest) =
                                  applyWrites lock doc2 audit2 rest := by
                                simp [applyWrites, hc0, hm0, hwc0]
                              constructor
                              · intro d2 a2
                                rw [hred]
                                exact ihfin d2 a2
                              · intro rec hrec
                                rw [hred] at hrec
                                rcases ihaud rec hrec with hin | hne
                                · rw [haudit2] at hin
                                  rcases List.mem_append.mp hin with hin2 | hin2
                                  · exact Or.inl hin2
                                  · refine Or.inr ?_
                                    simp at hin2
                                    rw [hin2]
                                    exact hc0ne
                                · exact Or.inr hne
                  case null =>
                      cases hm0 : jget kvs0 "meta" <;>
                        exact ⟨fun d2 a2 => by simp [applyWrites, hc0, hm0],
                          fun rec hrec => Or.inl
                            (by simpa [applyWrites, hc0, hm0, ApplyOut.audit] using hrec)⟩
                  case bool b =>
                      cases hm0 : jget kvs0 "meta" <;>
                        exact ⟨fun d2 a2 => by simp [applyWrites, hc0, hm0],
                          fun rec hrec => Or.inl
                            (by simpa [applyWrites, hc0, hm0, ApplyOut.audit] using hrec)⟩
                  case num n =>
                      cases hm0 : jget kvs0 "meta" <;>
                        exact ⟨fun d2 a2 => by simp [applyWrites, hc0, hm0],
                          fun rec hrec => Or.inl
                            (by simpa [applyWrites, hc0, hm0, ApplyOut.audit] using hrec)⟩
                  case arr xs =>
                      cases hm0 : jget kvs0 "meta" <;>
                        exact ⟨fun d2 a2 => by simp [applyWrites, hc0, hm0],
                          fun rec hrec => Or.inl
                            (by simpa [applyWrites, hc0, hm0, ApplyOut.audit] using hrec)⟩
                  case obj o =>
                      cases hm0 : jget kvs0 "meta" <;>
                        exact ⟨fun d2 a2 => by simp [applyWrites, hc0, hm0],
                          fun rec hrec => Or.inl
                            (by simpa [applyWrites, hc0, hm0, ApplyOut.audit] using hrec)⟩
          all_goals
            exact ⟨fun d2 a2 => by simp [applyWrites],
              fun rec hrec => Or.inl (by simpa [applyWrites, ApplyOut.audit] using hrec)⟩

/-! ## Claim C1 -/

set_option maxHeartbeats 2000000 in
/-- Claim C1 — for every call to the (spec-modelled) LockedSOVWriter
write_cell whose target cell is part of a merged region or whose existing
content is a formula string, the writer fails closed: the call returns the
error outcome for every value/source/meta (so the cell value is never
changed and no audit record is appended for that cell), and any hardened
driver run over a plan containing a write at that cell saves no output
file and carries no audit record for that cell — even when the cell's
column is policy-allowed. -/
theorem c1_fail_closed_merged_or_formula_cell (envGate : Bool) (plan : JsonFields) (lock : Lock) (doc : Document)
    (wsJ : JsonList) (i : Nat) (kvs : JsonFields) (s : String)
    (hws : pyGet plan "writes" = some (Json.arr wsJ))
    (hi : wsJ.toList[i]? = some (Json.obj kvs))
    (hcell : jget kvs "cell" = some (Json.str s))
    (hallow : colLettersOf s ∈ lock.allowed_columns)
    (hden : colLettersOf s ∉ lock.denied_columns)
    (hbad : (docGet doc s).merged = true ∨ isFormulaVal (docGet doc s).value = true) :
    (∀ audit v src m, write_cell lock doc audit s v src m = Except.error ()) ∧
    (applyDriver envGate plan lock doc).saveCount = 0 ∧
    (∀ rec ∈ (applyDriver envGate plan lock doc).applied, rec.cell ≠ s) := by
  refine ⟨fun audit v src m => write_cell_blocked hallow hden hbad audit v src m, ?_⟩
  unfold applyDriver
  cases hg : driverGates envGate plan lock with
  | fatal => simp [fatalRun]
  | crash => simp [crashRun]
  | proceed wsJ2 =>
      obtain ⟨hws2, hne2, hhash2, ⟨ts, hts, hdupf⟩, hpf2, hval⟩ := gates_proceed_inv hg
      rw [hws] at hws2
      injection hws2 with hw2
      injection hw2 with hw3
      subst hw3
      have hviol : ∀ (j : Nat) (w : Json), wsJ.toList[j]? = some w →
          writeViolations lock j w = Except.ok [] := by
        intro j w hj
        obtain ⟨es, hes, hsub⟩ := validate_plan_sub hval hws j w hj
        have : es = [] := List.eq_nil_iff_forall_not_mem.mpr
          (fun v hv => absurd (hsub v hv) (List.not_mem_nil v))
        rw [this] at hes
        exact hes
      obtain ⟨kvsI, sI, colI, rowI, hIobj, hIsheet, hIcell, hIparse⟩ :=
        writeViolations_nil_inv (hviol i (Json.obj kvs) hi)
      injection hIobj with hIk
      subst hIk
      have hIs : sI = s := by
        have hpg := jget_str_pyGet hcell
        rw [hpg] at hIcell
        injection hIcell with h1
        injection h1 with h2
        exact h2.symm
      rw [hIs] at hIcell hIparse
      have hearlier : ∀ (j : Nat) (kvs2 : JsonFields) (c2 : String), j < i →
          wsJ.toList[j]? = some (Json.obj kvs2) →
          jget kvs2 "cell" = some (Json.str c2) → c2 ≠ s := by
        intro j kvs2 c2 hj hg2 hc2 heq
        subst heq
        obtain ⟨kvs2b, s2, col2, row2, h2obj, h2sheet, h2cell, h2parse⟩ :=
          writeViolations_nil_inv (hviol j (Json.obj kvs2) hg2)
        injection h2obj with h2k
        subst h2k
        have h2s : s2 = c2 := by
          have hpg2 := jget_str_pyGet hc2
          rw [hpg2] at h2cell
          injection h2cell with hx1
          injection hx1 with hx2
          exact hx2.symm
        rw [h2s] at h2cell h2parse
        obtain ⟨hlen, hcorr⟩ := getTargets_corr wsJ.toList ts hts
        have htj := hcorr j kvs2 hg2
        have hti := hcorr i kvs hi
        rw [h2sheet, h2cell] at htj
        rw [hIsheet, hIcell] at hti
        have := no_dup_check_bound hdupf htj hti
        omega
      obtain ⟨hnof, haud⟩ := applyWrites_blocked hallow hden wsJ.toList doc [] i kvs
        hi hcell hearlier hbad
      cases ha : applyWrites lock doc [] wsJ.toList with
      | finished d2 a2 => exact absurd ha (hnof d2 a2)
      | raised a =>
          simp only [ha]
          refine ⟨trivial, ?_⟩
          intro rec hrec
          have hx := haud rec (by rw [ha]; simpa [ApplyOut.audit] using hrec)
          rcases hx with hin | hne
          · exact absurd hin (List.not_mem_nil rec)
          · exact hne
      | crashed a =>
          simp only [ha]
          refine ⟨trivial, ?_⟩
          intro rec hrec
          have hx := haud rec (by rw [ha]; simpa [ApplyOut.audit] using hrec)
          rcases hx with hin | hne
          · exact absurd hin (List.not_mem_nil rec)
          · exact hne

/-- Concrete run of the fail-closed theorem: the valid single-write plan
at I50 against a document in which I50 is merged. -/
theorem c1_fail_closed_merged_or_formula_cell_witness :
    (∀ audit v src m, write_cell lockTI [("I50", { value := Json.null, merged := true })] audit "I50" v src m = Except.error ()) ∧
    (applyDriver true (planWith [sovWrite "I50"]) lockTI [("I50", { value := Json.null, merged := true })]).saveCount = 0 ∧
    (∀ rec ∈ (applyDriver true (planWith [sovWrite "I50"]) lockTI [("I50", { value := Json.null, merged := true })]).applied, rec.cell ≠ "I50") :=
  c1_fail_closed_merged_or_formula_cell true (planWith [sovWrite "I50"]) lockTI
    [("I50", { value := Json.null, merged := true })]
    (JsonList.ofList [sovWrite "I50"]) 0
    (JsonFields.ofList [("sheet", Json.str "ESTIMATE (INPUT)"),
      ("cell", Json.str "I50"), ("value", Json.num 12345),
      ("source", sovSource), ("meta", sovMeta)]) "I50"
    rfl rfl rfl (by decide) (by decide) (Or.inl rfl)
